import Mathlib

/-!
Verification of the agro order/subscription payment workflow.

The definitions below are a shallow embedding of the Go source:
  src/internal/handler/handler.go  (order creation, receipt routing,
                                    admin payment callbacks)
  src/traits/database/sql-database.go (table shapes)
  src/cmd/main.go                  (process wiring)

Conventions of the embedding:
* SQL tables become lists of row structures; an UPDATE ... WHERE becomes a
  List.map that rewrites the matching rows; a transactional insert either
  applies all of its rows or none of them, driven by an explicit failure
  schedule (one injection point per database step of the Go code).
* Go strings stay String; the byte-level helpers the handlers use
  (strings.TrimSpace, strings.Split, strconv.ParseInt, fmt.Sprint) are
  re-implemented structurally on List Char so concrete runs reduce.
* Go float64 quantities (item qty) are embedded as the exact rational
  value of the double; the product int64(qty * float64(price)) is
  modelled faithfully: the exact product is rounded to 53-bit precision
  with IEEE-754 round-to-nearest, ties to even (mulFloat64), then
  truncated toward zero (truncF64).  Overflow and subnormals are outside
  the range any catalog quantity or price reaches and are not modelled.
* Outbound Telegram calls become values of an inductive message type;
  nothing is sent, the emitted list is the observable.
-/

namespace Agro

/-- Characters of the decimal digits zero to nine. -/
def isDigitChar (c : Char) : Bool := '0' ≤ c && c ≤ '9'

/-- Whitespace test used by the trimming helper (models unicode.IsSpace on
the ASCII range, which is all the handlers ever feed it). -/
def isSpaceChar (c : Char) : Bool := c = ' ' || c = '\t' || c = '\n' || c = '\r'

/-- Drop leading and trailing whitespace from a character list; models
strings.TrimSpace from the Go standard library. -/
def trimChars (cs : List Char) : List Char :=
  ((cs.dropWhile isSpaceChar).reverse.dropWhile isSpaceChar).reverse

/-- Model of strings.TrimSpace on String. -/
def goTrim (s : String) : String := String.mk (trimChars s.toList)

/-- Split a character list at every colon; models strings.Split(data, ":").
The accumulator holds the current field reversed. -/
def splitColon (cs : List Char) (acc : List Char) : List (List Char) :=
  match cs with
  | [] => [acc.reverse]
  | c :: rest =>
    if c = ':' then acc.reverse :: splitColon rest []
    else splitColon rest (c :: acc)

/-- Accumulate the value of a decimal digit string; none on any non-digit.
Part of the model of strconv.ParseInt. -/
def digitsVal (cs : List Char) (acc : ℤ) : Option ℤ :=
  match cs with
  | [] => some acc
  | c :: rest =>
    if isDigitChar c then digitsVal rest (acc * 10 + ((c.toNat : ℤ) - 48))
    else none

/-- Model of strconv.ParseInt(s, 10, 64): optional sign then decimal
digits, none on a syntax error.  The int64 range clamp of Go's ParseInt on
overflow is not modelled; every id the claims quantify over is far below
the bound. -/
def parseI64 (cs : List Char) : Option ℤ :=
  match cs with
  | [] => none
  | '-' :: rest => if rest = [] then none else (digitsVal rest 0).map (fun v => -v)
  | '+' :: rest => if rest = [] then none else digitsVal rest 0
  | _ => digitsVal cs 0

/-- Prefix test on character lists; models strings.HasPrefix. -/
def hasPfx (p cs : List Char) : Bool :=
  match p, cs with
  | [], _ => true
  | _, [] => false
  | a :: p1, b :: c1 => a = b && hasPfx p1 c1

/-- Lower-case an ASCII letter; helper for the EqualFold model. -/
def lowerChar (c : Char) : Char :=
  if 'A' ≤ c && c ≤ 'Z' then Char.ofNat (c.toNat + 32) else c

/-- Model of strings.EqualFold restricted to ASCII folding, which covers
the only use site (comparing the delivery type against "delivery"). -/
def eqFold (a b : String) : Bool :=
  a.toList.map lowerChar = b.toList.map lowerChar

/-- Decimal digits of a natural number, most significant first; the fuel
argument only serves termination and any fuel at least n suffices. -/
def natChars (fuel n : ℕ) : List Char :=
  match fuel with
  | 0 => []
  | fuel + 1 =>
    if n < 10 then [Char.ofNat (48 + n)]
    else natChars fuel (n / 10) ++ [Char.ofNat (48 + n % 10)]

/-- Model of fmt.Sprint on an int64 value. -/
def intToStr (i : ℤ) : String :=
  if i < 0 then String.mk ('-' :: natChars i.natAbs i.natAbs)
  else String.mk (natChars (i.natAbs + 1) i.natAbs)

/-- Truncation toward zero of an exact rational.  This is the
exact-arithmetic reading of int64(x); the program itself truncates the
float64-rounded product (see truncF64 and mulFloat64 below), which can
differ from this on inputs where the rounding crosses an integer. -/
def goTrunc (q : ℚ) : ℤ := if 0 ≤ q then ⌊q⌋ else -⌊-q⌋

-- ======================= float64 arithmetic =======================

/-- Bit length of a natural number (zero for zero); the fuel argument
only serves termination and fuel at least n suffices. -/
def bitLen (fuel n : ℕ) : ℕ :=
  match fuel with
  | 0 => 0
  | fuel + 1 => if n = 0 then 0 else 1 + bitLen fuel (n / 2)

/-- Whether 2 ^ k is at most the fraction n / d, by cross-multiplying. -/
def pow2le (k : ℤ) (n d : ℕ) : Bool :=
  if 0 ≤ k then d * 2 ^ k.toNat ≤ n else d ≤ n * 2 ^ (-k).toNat

/-- Floor of the base-two logarithm of n / d for positive n and d.  The
bit-length difference is off by at most one, fixed by one comparison. -/
def fracLog2 (n d : ℕ) : ℤ :=
  let k : ℤ := (bitLen n n : ℤ) - (bitLen d d : ℤ)
  if pow2le k n d then k else k - 1

/-- Round the fraction n / d to the nearest natural number, ties going to
the even neighbour, for positive d. -/
def roundHalfEven (n d : ℕ) : ℕ :=
  let f := n / d
  let r := n % d
  if 2 * r < d then f
  else if d < 2 * r then f + 1
  else if f % 2 = 0 then f else f + 1

/-- Finite float64 value, kept as an integer mantissa times a power of
two.  The representation is not normalised; only the denoted value
matters.  Exponent-range effects (overflow, subnormals) never arise for
the quantities and prices of this program and are not modelled. -/
structure F64 where
  m : ℤ
  e : ℤ
  deriving DecidableEq

/-- Round the exact fraction n / d to a float64: find the exponent that
scales the magnitude into the 53-bit mantissa range and round the scaled
value to the nearest integer, ties to even, as IEEE-754 binary64
round-to-nearest does. -/
def roundPairToF64 (n : ℤ) (d : ℕ) : F64 :=
  if n = 0 ∨ d = 0 then ⟨0, 0⟩
  else
    let a := n.natAbs
    let e : ℤ := fracLog2 a d - 52
    let m : ℕ :=
      if 0 ≤ e then roundHalfEven a (d * 2 ^ e.toNat)
      else roundHalfEven (a * 2 ^ (-e).toNat) d
    ⟨if n < 0 then -(m : ℤ) else (m : ℤ), e⟩

/-- Exact rational value of a float64. -/
def F64.toRat (f : F64) : ℚ :=
  if 0 ≤ f.e then (f.m : ℚ) * 2 ^ f.e.toNat else (f.m : ℚ) / 2 ^ (-f.e).toNat

/-- Go's int64(x) conversion applied to a float64: discard the fraction,
truncating toward zero. -/
def truncF64 (f : F64) : ℤ :=
  if 0 ≤ f.e then f.m * 2 ^ f.e.toNat else f.m.tdiv (2 ^ (-f.e).toNat)

/-- Go's float64(p) conversion of an int64: exact below 2 ^ 53, rounded
to nearest above. -/
def i64ToF64 (p : ℤ) : F64 := roundPairToF64 p 1

/-- The float64 product x * float64(p) of Go, for x the exact value of a
float64 (every qty a handler receives is one): convert the price, form
the exact product of x with the converted mantissa as an integer
fraction, and round once to the nearest float64 — exactly the IEEE-754
multiplication of the two operands. -/
def mulFloat64 (x : ℚ) (p : ℤ) : F64 :=
  let pf := i64ToF64 p
  if 0 ≤ pf.e then roundPairToF64 (x.num * pf.m * 2 ^ pf.e.toNat) x.den
  else roundPairToF64 (x.num * pf.m) (x.den * 2 ^ (-pf.e).toNat)

-- ======================= calendar arithmetic =======================

/-- Calendar date triple; the clock-of-day part of Go's time.Time is
irrelevant to every claim (AddDate leaves it unchanged) and is omitted. -/
structure GoDate where
  year : ℤ
  month : ℕ
  day : ℕ
  deriving DecidableEq

/-- Gregorian leap-year rule, as in Go's time package. -/
def isLeapYear (y : ℤ) : Bool := decide (y % 4 = 0 ∧ (y % 100 ≠ 0 ∨ y % 400 = 0))

/-- Length of a month in the Gregorian calendar. -/
def daysInMonth (y : ℤ) (m : ℕ) : ℕ :=
  match m with
  | 1 => 31
  | 2 => if isLeapYear y then 29 else 28
  | 3 => 31
  | 4 => 30
  | 5 => 31
  | 6 => 30
  | 7 => 31
  | 8 => 31
  | 9 => 30
  | 10 => 31
  | 11 => 30
  | 12 => 31
  | _ => 30

/-- Model of Go's t.AddDate(0, 1, 0) on a valid date (day at most 31):
bump the month, normalise a month overflow into the next year, and
normalise a day overflow by spilling the excess days into the following
month, exactly as time.Date does.  Total: every input yields a date. -/
def addOneMonth (d : GoDate) : GoDate :=
  let m1 := d.month + 1
  let y := if m1 > 12 then d.year + 1 else d.year
  let m := if m1 > 12 then 1 else m1
  let dim := daysInMonth y m
  if d.day ≤ dim then ⟨y, m, d.day⟩
  else
    let d2 := d.day - dim
    let m2 := m + 1
    if m2 > 12 then ⟨y + 1, 1, d2⟩ else ⟨y, m2, d2⟩

/-- Strict date order, used by the expiry comparisons. -/
def dateLt (a b : GoDate) : Bool :=
  decide (a.year < b.year ∨ (a.year = b.year ∧
    (a.month < b.month ∨ (a.month = b.month ∧ a.day < b.day))))

/-- Render a date as YYYY-MM-DD; models validUntil.Format("2006-01-02"). -/
def fmtDate (d : GoDate) : String :=
  intToStr d.year ++ "-" ++ intToStr (d.month : ℤ) ++ "-" ++ intToStr (d.day : ℤ)

-- ======================= data model =======================

/-- Payment method constant kaspi_link from handler.go. -/
def paymentKaspiLink : String := "kaspi_link"

/-- Payment method constant kaspi_transfer from handler.go. -/
def paymentKaspiTransfer : String := "kaspi_transfer"

/-- Payment method constant cash from handler.go. -/
def paymentCash : String := "cash"

/-- Model of humanPaymentMethod from handler.go. -/
def humanPaymentMethod (m : String) : String :=
  if m = paymentKaspiTransfer then "Kaspi Gold (перевод)"
  else if m = paymentCash then "Наличные"
  else "Kaspi Pay (ссылка)"

/-- Modelled from the spec: the session-state constants stateStart and
stateWaitingPayment are declared in a handler-package file that is not
under src/ (handler.go only uses them); the spec names the states Start
and AwaitingPayment.  Two distinct strings model them. -/
def stateStart : String := "start"

/-- Modelled from the spec: see stateStart. -/
def stateWaitingPayment : String := "waiting_payment"

/-- Modelled from the spec: domain.UserState (the BuyerSession record) is
declared in the internal/domain package, not under src/; handler.go uses
exactly the fields State, BroadCastType (payment method), Contact, IsPaid
and Count, which this structure mirrors. -/
structure UserState where
  state : String
  broadCastType : String
  contact : String
  isPaid : Bool
  count : ℤ
  deriving DecidableEq

/-- Session store keyed by buyer identity; models the Redis user-state
store at the get/save granularity the handlers use. -/
def Session : Type := ℤ → Option UserState

/-- Write one buyer's state record; models redisClient.SaveUserState. -/
def sessionSave (s : Session) (uid : ℤ) (st : UserState) : Session :=
  fun x => if x = uid then some st else s x

/-- Row of the orders table (sql-database.go). -/
structure OrderRow where
  id : ℤ
  userId : String
  storeCode : Option String
  totalAmount : ℤ
  status : String
  deriving DecidableEq

/-- Row of the order_items table (sql-database.go). -/
structure OrderItemRow where
  orderId : ℤ
  productId : ℤ
  name : String
  unit : String
  qty : ℚ
  price : ℤ
  amount : ℤ
  deriving DecidableEq

/-- Row of the subscriptions table (sql-database.go). -/
structure SubscriptionRow where
  id : ℤ
  userId : String
  phone : String
  status : String
  amount : ℤ
  validUntil : Option GoDate
  deriving DecidableEq

/-- Row of the users table (sql-database.go); only the columns the
workflow reads or writes are modelled. -/
structure UserRow where
  userId : String
  nickname : String
  phone : Option String
  subStatus : String
  subUntil : Option GoDate
  selectedStore : Option String
  deriving DecidableEq

/-- The Ledger Store: the four tables the payment workflow touches.
Item rows keep their insertion order, mirroring rowid order. -/
structure DB where
  orders : List OrderRow
  orderItems : List OrderItemRow
  subscriptions : List SubscriptionRow
  users : List UserRow
  deriving DecidableEq

/-- Order rows bearing a given id. -/
def ordersWithId (db : DB) (i : ℤ) : List OrderRow :=
  db.orders.filter (fun o => o.id = i)

/-- Item rows belonging to a given order id. -/
def itemsOfOrder (db : DB) (i : ℤ) : List OrderItemRow :=
  db.orderItems.filter (fun it => it.orderId = i)

/-- Fold step of maxBy: keep whichever of the accumulator and the next
row has the larger key. -/
def maxByStep {α : Type} (f : α → ℤ) (acc : Option α) (s : α) : Option α :=
  match acc with
  | none => some s
  | some t => if f s > f t then some s else some t

/-- Pick the row maximising f, as an ORDER BY f DESC LIMIT 1 does. -/
def maxBy {α : Type} (f : α → ℤ) (l : List α) : Option α :=
  l.foldl (maxByStep f) none

-- ======================= order creation =======================

/-- Submitted line item (orderItemIn in handler.go); qty is the exact
rational value of the float64 field. -/
structure OrderItemIn where
  productId : ℤ
  name : String
  qty : ℚ
  unit : String
  price : ℤ
  deriving DecidableEq

/-- Request body of /api/orders/confirm (confirmOrderIn in handler.go),
after the string-or-number telegram_id JSON field has been decoded. -/
structure ConfirmOrderIn where
  telegramId : String
  items : List OrderItemIn
  deliveryType : String
  deliveryAddress : String
  deliveryPhone : String
  paymentMethod : String

/-- Request body of /api/orders/create (createOrderIn in handler.go). -/
structure CreateOrderIn where
  telegramId : String
  items : List OrderItemIn

/-- Denormalised line amount, int64(it.Qty * float64(it.Price)): the
float64 product of the quantity and the converted price, truncated
toward zero — the float64 rounding of the multiplication is part of the
model. -/
def lineAmount (it : OrderItemIn) : ℤ := truncF64 (mulFloat64 it.qty it.price)

/-- Validation test of the per-item loop: it.Qty <= 0 || it.Price < 0. -/
def badItem (it : OrderItemIn) : Bool := it.qty ≤ 0 || it.price < 0

/-- Accumulation of the goods total exactly as the Go loop does it:
goodsTotal += int64(it.Qty * float64(it.Price)) per line, each line's
float64 product rounded and truncated individually. -/
def goodsTotalOf (items : List OrderItemIn) : ℤ :=
  items.foldl (fun acc it => acc + lineAmount it) 0

/-- Synthetic delivery line appended when delivery is requested. -/
def deliveryLine : OrderItemIn :=
  { productId := 0, name := "Доставка", qty := 1, unit := "услуга", price := 1000 }

/-- Item list handleConfirmOrder actually persists: the submitted items,
with the synthetic delivery line appended when delivery was chosen. -/
def confirmItems (i : ConfirmOrderIn) : List OrderItemIn :=
  if eqFold i.deliveryType "delivery" then i.items ++ [deliveryLine] else i.items

/-- Delivery surcharge of a confirm request: the flat 1000 tenge rate
when the delivery type is "delivery" (case-folded), otherwise zero. -/
def deliveryPriceOf (i : ConfirmOrderIn) : ℤ :=
  if eqFold i.deliveryType "delivery" then 1000 else 0

/-- Payment method handleConfirmOrder resolves: the trimmed submitted
method, an empty one defaulting to kaspi_link (handler.go 854-856). -/
def resolvedPm (i : ConfirmOrderIn) : String :=
  if goTrim i.paymentMethod = "" then paymentKaspiLink else goTrim i.paymentMethod

/-- Order id LastInsertId will allocate: one past the largest id. -/
def nextOrderId (db : DB) : ℤ :=
  (match maxBy (fun o => o.id) db.orders with
   | none => 0
   | some o => o.id) + 1

/-- Database steps of the order-creation transaction at which a failure
can be injected, one per fallible call in the Go code. -/
inductive TxStep where
  | txBegin
  | insertOrder
  | prepareItems
  | insertItem (i : ℕ)
  | txCommit
  deriving DecidableEq

/-- Row the prepared statement writes for one submitted item. -/
def mkItemRow (oid : ℤ) (it : OrderItemIn) : OrderItemRow :=
  { orderId := oid, productId := it.productId, name := it.name,
    unit := it.unit, qty := it.qty, price := it.price,
    amount := lineAmount it }

/-- The per-item insert loop inside the transaction: each stmt.Exec may
fail (none aborts the transaction), otherwise every row is produced. -/
def insertItems (fails : TxStep → Bool) (oid : ℤ) (items : List OrderItemIn)
    (idx : ℕ) : Option (List OrderItemRow) :=
  match items with
  | [] => some []
  | it :: rest =>
    if fails (TxStep.insertItem idx) then none
    else (insertItems fails oid rest (idx + 1)).map (fun rs => mkItemRow oid it :: rs)

/-- Selected store of a buyer, via SELECT selected_store FROM users. -/
def lookupSelectedStore (db : DB) (tgStr : String) : Option String :=
  match db.users.find? (fun u => u.userId = tgStr) with
  | none => none
  | some u => u.selectedStore

/-- Model of nullIfEmpty from handler.go. -/
def nullIfEmpty (s : String) : Option String :=
  if goTrim s = "" then none else some s

/-- Structured content of the notifyAdmin message an order creation sends;
the rendered text is a pure function of these fields. -/
structure AdminNote where
  tgId : String
  payMethod : Option String
  total : ℤ
  items : List OrderItemIn

/-- Structured content of the receipt message sendOrderReceiptToUser
builds for the buyer; payMethod is the method after the empty-string
default of that function has been applied. -/
structure ReceiptMsg where
  chatId : ℤ
  orderId : ℤ
  payMethod : String
  calcTotal : ℤ
  kaspiButton : Bool

/-- Model of sendOrderReceiptToUser: parse the chat id, default an empty
payment method to kaspi_link, re-sum the line amounts of the valid items
(falling back to the stored total when that sum is zero), and attach the
Kaspi Pay button unless the method is kaspi_transfer or cash. -/
def sendOrderReceiptToUser (telegramID : String) (orderID : ℤ)
    (items : List OrderItemIn) (total : ℤ) (paymentMethod : String) :
    Option ReceiptMsg :=
  match parseI64 (goTrim telegramID).toList with
  | none => none
  | some tgid =>
    let pm := if paymentMethod = "" then paymentKaspiLink else paymentMethod
    let cSum := goodsTotalOf (items.filter (fun it => !(badItem it)))
    let calc2 := if cSum = 0 ∧ 0 < total then total else cSum
    some { chatId := tgid, orderId := orderID, payMethod := pm,
           calcTotal := calc2,
           kaspiButton := !(pm = paymentKaspiTransfer || pm = paymentCash) }

/-- Outcome record of one order-creation request: the ledger after the
request, the HTTP-level outcome (ok payload or the jsonErr message), the
session write, and the two outbound notifications if they were built. -/
structure OrderApiOut where
  db : DB
  outcome : Except String (ℤ × ℤ × ℤ × ℤ)
  sessionWrite : Option (ℤ × UserState)
  adminNote : Option AdminNote
  receipt : Option ReceiptMsg

/-- Request that ends before any effect: the ledger is returned unchanged
and nothing is sent. -/
def noEffect (db : DB) (e : String) : OrderApiOut :=
  { db := db, outcome := Except.error e, sessionWrite := none,
    adminNote := none, receipt := none }

/-- Model of handleConfirmOrder (handler.go lines 832-1004).  fails is the
failure schedule of the surrounding sql transaction; the ok payload is
(orderId, goodsTotal, deliveryPrice, total) as in the JSON reply. -/
def handleConfirmOrder (fails : TxStep → Bool) (db : DB) (i : ConfirmOrderIn) :
    OrderApiOut :=
  let tgStr := goTrim i.telegramId
  if tgStr = "" ∨ i.items = [] then
    noEffect db "telegram_id and items are required"
  else
    let payMethod := resolvedPm i
    let store := lookupSelectedStore db tgStr
    if i.items.any badItem then noEffect db "bad item qty/price"
    else
      let goodsTotal := goodsTotalOf i.items
      let deliveryPrice := deliveryPriceOf i
      let items2 := confirmItems i
      let total := goodsTotal + deliveryPrice
      if fails TxStep.txBegin then noEffect db "db error"
      else if fails TxStep.insertOrder then noEffect db "db error"
      else
        let oid := nextOrderId db
        if fails TxStep.prepareItems then noEffect db "db error"
        else
          match insertItems fails oid items2 0 with
          | none => noEffect db "db error"
          | some rows =>
            if fails TxStep.txCommit then noEffect db "db error"
            else
              { db := { db with
                  orders := db.orders ++
                    [{ id := oid, userId := tgStr,
                       storeCode := nullIfEmpty ((store).getD ""),
                       totalAmount := total, status := "new" }],
                  orderItems := db.orderItems ++ rows }
                outcome := Except.ok (oid, goodsTotal, deliveryPrice, total)
                sessionWrite := (parseI64 tgStr.toList).map (fun uid =>
                  (uid, { state := stateWaitingPayment,
                          broadCastType := payMethod,
                          contact := i.deliveryPhone,
                          isPaid := false, count := 0 }))
                adminNote := some { tgId := tgStr, payMethod := some payMethod,
                                    total := total, items := items2 }
                receipt := sendOrderReceiptToUser tgStr oid items2 total payMethod }

/-- Model of handleCreateOrder (handler.go lines 1274-1385).  The item
validation happens inside the transaction there, but a validation failure
still rolls back, so the ledger is untouched either way; the ok payload
reuses the confirm shape with deliveryPrice zero and goodsTotal equal to
the total.  No session write happens on this path, and the receipt is
always requested with kaspi_link. -/
def handleCreateOrder (fails : TxStep → Bool) (db : DB) (i : CreateOrderIn) :
    OrderApiOut :=
  let tgStr := goTrim i.telegramId
  if tgStr = "" ∨ i.items = [] then
    noEffect db "telegram_id and items are required"
  else
    let store := lookupSelectedStore db tgStr
    if fails TxStep.txBegin then noEffect db "db error"
    else if i.items.any badItem then noEffect db "bad item qty/price"
    else
      let total := goodsTotalOf i.items
      if fails TxStep.insertOrder then noEffect db "db error"
      else
        let oid := nextOrderId db
        if fails TxStep.prepareItems then noEffect db "db error"
        else
          match insertItems fails oid i.items 0 with
          | none => noEffect db "db error"
          | some rows =>
            if fails TxStep.txCommit then noEffect db "db error"
            else
              { db := { db with
                  orders := db.orders ++
                    [{ id := oid, userId := tgStr,
                       storeCode := nullIfEmpty ((store).getD ""),
                       totalAmount := total, status := "new" }],
                  orderItems := db.orderItems ++ rows }
                outcome := Except.ok (oid, total, 0, total)
                sessionWrite := none
                adminNote := some { tgId := tgStr, payMethod := none,
                                    total := total, items := i.items }
                receipt := sendOrderReceiptToUser tgStr oid i.items total
                             paymentKaspiLink }

-- ======================= receipt routing =======================

/-- Destination handlePaymentDocument picks for a submitted document:
either subscription proof or order proof, each tagged with the entity id
and the buyer id (and, for orders, the payment method shown to admin). -/
inductive RouteResult where
  | subProof (subId : ℤ) (buyer : ℤ)
  | orderProof (orderId : ℤ) (buyer : ℤ) (payMethod : String)
  deriving DecidableEq

/-- Callback tokens attached to the forwarded document, cbOK and cbReject
in handlePaymentDocument. -/
def routeTokens (r : RouteResult) : String × String :=
  match r with
  | RouteResult.subProof i b =>
    ("sub_ok:" ++ intToStr i ++ ":" ++ intToStr b,
     "sub_reject:" ++ intToStr i ++ ":" ++ intToStr b)
  | RouteResult.orderProof i b _ =>
    ("pay_ok:" ++ intToStr i ++ ":" ++ intToStr b,
     "pay_reject:" ++ intToStr i ++ ":" ++ intToStr b)

/-- Order branch of handlePaymentDocument: the buyer's most recent order
(ORDER BY id DESC LIMIT 1, defaulting to id zero when there is none) with
the payment method from the session, empty defaulting to kaspi_link. -/
def orderProofOf (db : DB) (uid : ℤ) (st : UserState) : RouteResult :=
  let uidStr := intToStr uid
  let orderId :=
    match maxBy (fun o => o.id) (db.orders.filter (fun o => o.userId = uidStr)) with
    | none => 0
    | some o => o.id
  let pm := if st.broadCastType = "" then paymentKaspiLink else st.broadCastType
  RouteResult.orderProof orderId uid pm

/-- Model of the routing decision of handlePaymentDocument (handler.go
lines 354-550): a pending subscription with the greatest id wins; only
without one does the document go out as order proof. -/
def routePaymentDocument (db : DB) (uid : ℤ) (st : UserState) : RouteResult :=
  let uidStr := intToStr uid
  match maxBy (fun s => s.id)
      (db.subscriptions.filter (fun s => s.userId = uidStr ∧ s.status = "pending")) with
  | some s =>
    if s.id > 0 then RouteResult.subProof s.id uid
    else orderProofOf db uid st
  | none => orderProofOf db uid st

-- ======================= admin callbacks =======================

/-- Verbs of the admin decision token. -/
inductive CbAction where
  | payOk
  | payReject
  | subOk
  | subReject
  deriving DecidableEq

/-- Outbound bot calls the callback handler can make. -/
inductive CbMsg where
  | answerCallback (text : String)
  | sendToUser (chatId : ℤ) (text : String)
  deriving DecidableEq

/-- Observable result of one callback delivery. -/
structure CbOut where
  db : DB
  sess : Session
  msgs : List CbMsg

/-- Zero value of domain.UserState, what the handler uses when the
session read returns nothing. -/
def zeroUserState : UserState :=
  { state := "", broadCastType := "", contact := "", isPaid := false, count := 0 }

/-- Model of UPDATE orders SET status = 'paid' WHERE id = ?. -/
def setOrderPaid (db : DB) (i : ℤ) : DB :=
  { db with orders := db.orders.map (fun o =>
      if o.id = i then { o with status := "paid" } else o) }

/-- Model of UPDATE subscriptions SET status = 'active', valid_until = ?
WHERE id = ?. -/
def setSubActive (db : DB) (i : ℤ) (vu : GoDate) : DB :=
  { db with subscriptions := db.subscriptions.map (fun s =>
      if s.id = i then { s with status := "active", validUntil := some vu } else s) }

/-- Model of UPDATE users SET sub_status = 'active', sub_until = ?
WHERE user_id = ?. -/
def setUserSubActive (db : DB) (uidStr : String) (vu : GoDate) : DB :=
  { db with users := db.users.map (fun u =>
      if u.userId = uidStr then { u with subStatus := "active", subUntil := some vu } else u) }

/-- Model of UPDATE subscriptions SET status = 'rejected' WHERE id = ?. -/
def setSubRejected (db : DB) (i : ℤ) : DB :=
  { db with subscriptions := db.subscriptions.map (fun s =>
      if s.id = i then { s with status := "rejected" } else s) }

/-- Session transition shared by pay_ok and sub_ok: read the buyer state
(zero value when absent), reset it to Start and mark it paid. -/
def sessResetPaid (sess : Session) (uid : ℤ) : Session :=
  sessionSave sess uid
    { (sess uid).getD zeroUserState with state := stateStart, isPaid := true }

/-- Model of PaymentCallbackHandler (handler.go lines 150-348): trim the
callback data, classify it by verb prefix, require exactly three
colon-separated fields, parse both ids with parse errors ignored (the id
becomes zero, as the discarded error of strconv.ParseInt leaves it), and
run the verb's transition; now stands for time.Now() in the sub_ok arm.
First the prefix classification switch of the handler: -/
def cbActionOf (data : List Char) : Option CbAction :=
  if hasPfx "pay_ok:".toList data then some CbAction.payOk
  else if hasPfx "pay_reject:".toList data then some CbAction.payReject
  else if hasPfx "sub_ok:".toList data then some CbAction.subOk
  else if hasPfx "sub_reject:".toList data then some CbAction.subReject
  else none

/-- The callback handler itself; see cbActionOf. -/
def paymentCallbackHandler (now : GoDate) (db : DB) (sess : Session)
    (dataRaw : String) : CbOut :=
  let data := trimChars dataRaw.toList
  if data = [] then { db := db, sess := sess, msgs := [] }
  else
    match cbActionOf data with
    | none => { db := db, sess := sess, msgs := [] }
    | some action =>
      let parts := splitColon data []
      if parts.length ≠ 3 then { db := db, sess := sess, msgs := [] }
      else
        let mainID := (parseI64 ((parts.get? 1).getD [])).getD 0
        let userID := (parseI64 ((parts.get? 2).getD [])).getD 0
        match action with
        | CbAction.payOk =>
          { db := if mainID > 0 then setOrderPaid db mainID else db
            sess := if userID ≠ 0 then sessResetPaid sess userID else sess
            msgs := [CbMsg.answerCallback "Оплата заказа подтверждена ✅"] ++
              (if userID ≠ 0 then
                [CbMsg.sendToUser userID
                  ("✅ Ваша оплата по заказу №" ++ intToStr mainID ++
                   " подтверждена! Спасибо за заказ.")]
               else []) }
        | CbAction.payReject =>
          { db := db, sess := sess
            msgs := [CbMsg.answerCallback "Оплата заказа отклонена ❌"] ++
              (if userID ≠ 0 then
                [CbMsg.sendToUser userID
                  ("❌ Оплата по заказу №" ++ intToStr mainID ++
                   " не прошла проверку.\nПожалуйста, свяжитесь с администратором или отправьте корректный чек ещё раз.")]
               else []) }
        | CbAction.subOk =>
          if mainID > 0 ∧ userID ≠ 0 then
            let validUntil := addOneMonth now
            { db := setUserSubActive (setSubActive db mainID validUntil)
                      (intToStr userID) validUntil
              sess := sessResetPaid sess userID
              msgs := [CbMsg.answerCallback "Подписка активирована ✅",
                CbMsg.sendToUser userID
                  ("✅ Ваша подписка на «АГРО Клуб Оптовых Цен» активирована!\nДоступ к оптовым ценам до: " ++
                   fmtDate validUntil ++ ".")] }
          else { db := db, sess := sess, msgs := [] }
        | CbAction.subReject =>
          { db := if mainID > 0 then setSubRejected db mainID else db
            sess := sess
            msgs := [CbMsg.answerCallback "Оплата подписки отклонена ❌"] ++
              (if userID ≠ 0 then
                [CbMsg.sendToUser userID
                  "❌ Оплата подписки не прошла проверку.\nПожалуйста, свяжитесь с администратором или отправьте корректный чек ещё раз."]
               else []) }

-- ======================= expiry sweeper =======================

/-- Modelled from the spec: the Expiry Sweeper of spec section 4.5 is not
under src/ (src/cmd/main.go lines 38-87 wire the bot and web server only,
and no file under src/ performs the expiry transitions), so its tick is
modelled from the spec's words: transition every subscription that is
active with validUntil in the past to expired, and every user that is
active with subUntil in the past to expired with subUntil cleared.  The
daily scheduling itself is process machinery with no further data
content. -/
def subDue (now : GoDate) (s : SubscriptionRow) : Bool :=
  decide (s.status = "active") &&
    (match s.validUntil with
     | some d => dateLt d now
     | none => false)

/-- Modelled from the spec: the user-side condition of the sweep, a user
row whose subStatus is active with subUntil in the past. -/
def userDue (now : GoDate) (u : UserRow) : Bool :=
  decide (u.subStatus = "active") &&
    (match u.subUntil with
     | some d => dateLt d now
     | none => false)

/-- Modelled from the spec: one tick of the Expiry Sweeper, see the
comment on subDue. -/
def sweepExpired (now : GoDate) (db : DB) : DB :=
  { db with
    subscriptions := db.subscriptions.map (fun s =>
      if subDue now s then { s with status := "expired" } else s),
    users := db.users.map (fun u =>
      if userDue now u then { u with subStatus := "expired", subUntil := none }
      else u) }

/-- Well-formed ledger: every item row points at an existing order row. -/
def WfItems (db : DB) : Prop :=
  ∀ it ∈ db.orderItems, ∃ o ∈ db.orders, it.orderId = o.id

/-- All-or-nothing shape of one order-creation request against ledger db:
either the outcome is ok for the newly allocated order id with the order
row and every persisted item row committed, or the outcome is the generic
"db error" and the ledger is untouched, with zero rows in orders and in
order_items for that id. -/
def AtomicOutcome (db : DB) (out : OrderApiOut) (persisted : List OrderItemIn) :
    Prop :=
  ((∃ g d t, out.outcome = Except.ok (nextOrderId db, g, d, t)) ∧
    (∃ o, ordersWithId out.db (nextOrderId db) = [o] ∧ o.id = nextOrderId db) ∧
    itemsOfOrder out.db (nextOrderId db) =
      persisted.map (mkItemRow (nextOrderId db)))
  ∨ (out.outcome = Except.error "db error" ∧ out.db = db ∧
     ordersWithId out.db (nextOrderId db) = [] ∧
     itemsOfOrder out.db (nextOrderId db) = [])

set_option maxRecDepth 8000

instance : DecidableEq (Except String (ℤ × ℤ × ℤ × ℤ))
  | Except.error x, Except.error y =>
    if h : x = y then isTrue (by rw [h]) else isFalse (by simp [h])
  | Except.error _, Except.ok _ => isFalse (by simp)
  | Except.ok _, Except.error _ => isFalse (by simp)
  | Except.ok x, Except.ok y =>
    if h : x = y then isTrue (by rw [h]) else isFalse (by simp [h])

/-- Message classifier: true exactly on messages addressed to a buyer
chat (the sendToUser call), false on admin callback acknowledgements. -/
def isBuyerMsg (m : CbMsg) : Bool :=
  match m with
  | CbMsg.sendToUser _ _ => true
  | CbMsg.answerCallback _ => false

-- ======================= helper lemmas =======================

lemma maxByStep_none {α : Type} (f : α → ℤ) (s : α) :
    maxByStep f none s = some s := rfl

lemma maxByStep_some_bound {α : Type} (f : α → ℤ) (t s : α) :
    ∃ u, maxByStep f (some t) s = some u ∧ f t ≤ f u ∧ f s ≤ f u ∧
      (u = s ∨ u = t) := by
  by_cases h : f s > f t
  · exact ⟨s, by simp [maxByStep, h], le_of_lt h, le_refl _, Or.inl rfl⟩
  · exact ⟨t, by simp [maxByStep, h], le_refl _, le_of_not_lt h, Or.inr rfl⟩

lemma foldl_maxByStep_some {α : Type} (f : α → ℤ) :
    ∀ (l : List α) (t : α), ∃ m, l.foldl (maxByStep f) (some t) = some m ∧
      f t ≤ f m ∧ (m = t ∨ m ∈ l) := by
  intro l
  induction l with
  | nil => exact fun t => ⟨t, rfl, le_refl _, Or.inl rfl⟩
  | cons s l ih =>
    intro t
    obtain ⟨u, hu, htu, hsu, hcase⟩ := maxByStep_some_bound f t s
    obtain ⟨m, hm, hum, hmem⟩ := ih u
    refine ⟨m, ?_, le_trans htu hum, ?_⟩
    · simpa [hu] using hm
    · rcases hmem with h | h
      · rcases hcase with h2 | h2
        · exact Or.inr (by simp [h, h2])
        · exact Or.inl (by rw [h, h2])
      · exact Or.inr (List.mem_cons_of_mem _ h)

lemma foldl_maxByStep_acc_le {α : Type} (f : α → ℤ) (l : List α) (t m : α)
    (h : l.foldl (maxByStep f) (some t) = some m) : f t ≤ f m := by
  obtain ⟨m2, hm2, hle, _⟩ := foldl_maxByStep_some f l t
  rw [h] at hm2
  cases hm2
  exact hle

lemma foldl_maxByStep_mem_le {α : Type} (f : α → ℤ) :
    ∀ (l : List α) (t a m : α), a ∈ l →
      l.foldl (maxByStep f) (some t) = some m → f a ≤ f m := by
  intro l
  induction l with
  | nil => intro t a m ha; exact absurd ha (List.not_mem_nil a)
  | cons s l ih =>
    intro t a m ha hfold
    obtain ⟨u, hu, htu, hsu, _⟩ := maxByStep_some_bound f t s
    rw [List.foldl_cons, hu] at hfold
    rcases List.mem_cons.mp ha with h | h
    · exact le_trans (h ▸ hsu) (foldl_maxByStep_acc_le f l u m hfold)
    · exact ih u a m h hfold

lemma maxBy_spec {α : Type} (f : α → ℤ) (l : List α) (a : α) (ha : a ∈ l) :
    ∃ m, maxBy f l = some m ∧ m ∈ l ∧ f a ≤ f m := by
  cases l with
  | nil => exact absurd ha (List.not_mem_nil a)
  | cons s l =>
    obtain ⟨m, hm, hsm, hmem⟩ := foldl_maxByStep_some f l s
    have hfold : maxBy f (s :: l) = some m := by
      simpa [maxBy, List.foldl_cons, maxByStep_none] using hm
    refine ⟨m, hfold, ?_, ?_⟩
    · rcases hmem with h | h
      · exact h ▸ List.mem_cons_self s l
      · exact List.mem_cons_of_mem _ h
    · rcases List.mem_cons.mp ha with h | h
      · exact h ▸ hsm
      · exact foldl_maxByStep_mem_le f l s a m h hm

lemma maxBy_mem {α : Type} (f : α → ℤ) (l : List α) (m : α)
    (h : maxBy f l = some m) : m ∈ l := by
  cases l with
  | nil => simp [maxBy] at h
  | cons s l =>
    obtain ⟨m2, hm2, hmem, _⟩ := maxBy_spec f (s :: l) s (List.mem_cons_self s l)
    rw [h] at hm2
    cases hm2
    exact hmem

lemma maxBy_eq_none {α : Type} (f : α → ℤ) (l : List α) :
    maxBy f l = none ↔ l = [] := by
  cases l with
  | nil => simp [maxBy]
  | cons s l =>
    simp only [List.cons_ne_nil, iff_false]
    intro h
    obtain ⟨m, hm, _, _⟩ := maxBy_spec f (s :: l) s (List.mem_cons_self s l)
    rw [h] at hm
    cases hm

lemma lt_nextOrderId (db : DB) (o : OrderRow) (h : o ∈ db.orders) :
    o.id < nextOrderId db := by
  obtain ⟨m, hm, _, hle⟩ := maxBy_spec (fun x => x.id) db.orders o h
  simp only [nextOrderId, hm]
  omega

lemma insertItems_eq_map (fails : TxStep → Bool) (oid : ℤ) :
    ∀ (items : List OrderItemIn) (idx : ℕ) (rs : List OrderItemRow),
      insertItems fails oid items idx = some rs →
      rs = items.map (mkItemRow oid) := by
  intro items
  induction items with
  | nil => intro idx rs h; simpa [insertItems] using h.symm
  | cons it rest ih =>
    intro idx rs h
    by_cases hf : fails (TxStep.insertItem idx)
    · simp [insertItems, hf] at h
    · rcases h2 : insertItems fails oid rest (idx + 1) with _ | rs2
      · simp [insertItems, hf, h2] at h
      · simp [insertItems, hf, h2] at h
        rw [← h, ih (idx + 1) rs2 h2]
        simp

lemma goodsTotal_foldl_aux :
    ∀ (items : List OrderItemIn) (acc : ℤ),
      items.foldl (fun a it => a + lineAmount it) acc =
        acc + (items.map lineAmount).sum := by
  intro items
  induction items with
  | nil => intro acc; simp
  | cons it rest ih =>
    intro acc
    simp only [List.foldl_cons, List.map_cons, List.sum_cons, ih]
    ring

lemma goodsTotalOf_eq_sum (items : List OrderItemIn) :
    goodsTotalOf items = (items.map lineAmount).sum := by
  simpa [goodsTotalOf] using goodsTotal_foldl_aux items 0

lemma ordersWithId_fresh (db : DB) : ordersWithId db (nextOrderId db) = [] := by
  apply List.filter_eq_nil_iff.mpr
  intro o ho
  have h := lt_nextOrderId db o ho
  simp only [decide_eq_true_eq]
  omega

lemma itemsOfOrder_fresh (db : DB) (hwf : WfItems db) :
    itemsOfOrder db (nextOrderId db) = [] := by
  apply List.filter_eq_nil_iff.mpr
  intro it hit
  obtain ⟨o, ho, heq⟩ := hwf it hit
  have h := lt_nextOrderId db o ho
  simp only [decide_eq_true_eq]
  omega

lemma ordersWithId_commit (db db2 : DB) (row : OrderRow)
    (h : db2.orders = db.orders ++ [row]) (hid : row.id = nextOrderId db) :
    ordersWithId db2 (nextOrderId db) = [row] := by
  have h0 := ordersWithId_fresh db
  simp only [ordersWithId] at h0 ⊢
  rw [h, List.filter_append, h0]
  simp [hid]

lemma itemsOfOrder_commit (db db2 : DB) (rows : List OrderItemRow)
    (h : db2.orderItems = db.orderItems ++ rows) (hwf : WfItems db)
    (hall : ∀ r ∈ rows, r.orderId = nextOrderId db) :
    itemsOfOrder db2 (nextOrderId db) = rows := by
  have h0 := itemsOfOrder_fresh db hwf
  simp only [itemsOfOrder] at h0 ⊢
  rw [h, List.filter_append, h0, List.nil_append]
  apply List.filter_eq_self.mpr
  intro r hr
  simp [hall r hr]

lemma mkItemRow_orderId (oid : ℤ) (items : List OrderItemIn) :
    ∀ r ∈ items.map (mkItemRow oid), r.orderId = oid := by
  intro r hr
  obtain ⟨it, _, heq⟩ := List.mem_map.mp hr
  rw [← heq]
  rfl

lemma handleConfirmOrder_atomic (fails : TxStep → Bool) (db : DB)
    (i : ConfirmOrderIn) (hwf : WfItems db)
    (htg : ¬ goTrim i.telegramId = "") (hne : ¬ i.items = [])
    (hval : ∀ it ∈ i.items, badItem it = false) :
    AtomicOutcome db (handleConfirmOrder fails db i) (confirmItems i) := by
  have hany : i.items.any badItem = false :=
    List.any_eq_false.mpr (fun it h => by simp [hval it h])
  unfold handleConfirmOrder
  simp only [htg, hne, or_self, if_false, hany, Bool.false_eq_true, AtomicOutcome]
  by_cases h1 : fails TxStep.txBegin
  · simp [h1, noEffect, ordersWithId_fresh, itemsOfOrder_fresh db hwf]
  by_cases h2 : fails TxStep.insertOrder
  · simp [h1, h2, noEffect, ordersWithId_fresh, itemsOfOrder_fresh db hwf]
  by_cases h3 : fails TxStep.prepareItems
  · simp [h1, h2, h3, noEffect, ordersWithId_fresh, itemsOfOrder_fresh db hwf]
  rcases hins : insertItems fails (nextOrderId db) (confirmItems i) 0 with _ | rows
  · simp [h1, h2, h3, hins, noEffect, ordersWithId_fresh,
      itemsOfOrder_fresh db hwf]
  by_cases h4 : fails TxStep.txCommit
  · simp [h1, h2, h3, hins, h4, noEffect, ordersWithId_fresh,
      itemsOfOrder_fresh db hwf]
  have hrows := insertItems_eq_map fails (nextOrderId db) (confirmItems i) 0 rows hins
  simp only [h1, h2, h3, hins, h4, if_false, Bool.false_eq_true]
  left
  refine ⟨⟨_, _, _, rfl⟩, ?_, ?_⟩
  · refine ⟨_, ordersWithId_commit db _ _ rfl rfl, rfl⟩
  · rw [itemsOfOrder_commit db _ rows rfl hwf, hrows]
    rw [hrows]
    exact mkItemRow_orderId _ _

lemma handleCreateOrder_atomic (fails : TxStep → Bool) (db : DB)
    (j : CreateOrderIn) (hwf : WfItems db)
    (htg : ¬ goTrim j.telegramId = "") (hne : ¬ j.items = [])
    (hval : ∀ it ∈ j.items, badItem it = false) :
    AtomicOutcome db (handleCreateOrder fails db j) j.items := by
  have hany : j.items.any badItem = false :=
    List.any_eq_false.mpr (fun it h => by simp [hval it h])
  unfold handleCreateOrder
  simp only [htg, hne, or_self, if_false, hany, Bool.false_eq_true, AtomicOutcome]
  by_cases h1 : fails TxStep.txBegin
  · simp [h1, noEffect, ordersWithId_fresh, itemsOfOrder_fresh db hwf]
  by_cases h2 : fails TxStep.insertOrder
  · simp [h1, h2, noEffect, ordersWithId_fresh, itemsOfOrder_fresh db hwf]
  by_cases h3 : fails TxStep.prepareItems
  · simp [h1, h2, h3, noEffect, ordersWithId_fresh, itemsOfOrder_fresh db hwf]
  rcases hins : insertItems fails (nextOrderId db) j.items 0 with _ | rows
  · simp [h1, h2, h3, hins, noEffect, ordersWithId_fresh,
      itemsOfOrder_fresh db hwf]
  by_cases h4 : fails TxStep.txCommit
  · simp [h1, h2, h3, hins, h4, noEffect, ordersWithId_fresh,
      itemsOfOrder_fresh db hwf]
  have hrows := insertItems_eq_map fails (nextOrderId db) j.items 0 rows hins
  simp only [h1, h2, h3, hins, h4, if_false, Bool.false_eq_true]
  left
  refine ⟨⟨_, _, _, rfl⟩, ?_, ?_⟩
  · refine ⟨_, ordersWithId_commit db _ _ rfl rfl, rfl⟩
  · rw [itemsOfOrder_commit db _ rows rfl hwf, hrows]
    rw [hrows]
    exact mkItemRow_orderId _ _

lemma handleConfirmOrder_ok (fails : TxStep → Bool) (db : DB)
    (i : ConfirmOrderIn) (p : ℤ × ℤ × ℤ × ℤ)
    (hok : (handleConfirmOrder fails db i).outcome = Except.ok p) :
    p = (nextOrderId db, goodsTotalOf i.items, deliveryPriceOf i,
         goodsTotalOf i.items + deliveryPriceOf i) ∧
    (handleConfirmOrder fails db i).db =
      { db with
        orders := db.orders ++
          [{ id := nextOrderId db, userId := goTrim i.telegramId,
             storeCode := nullIfEmpty
               ((lookupSelectedStore db (goTrim i.telegramId)).getD ""),
             totalAmount := goodsTotalOf i.items + deliveryPriceOf i,
             status := "new" }],
        orderItems := db.orderItems ++
          (confirmItems i).map (mkItemRow (nextOrderId db)) } ∧
    (handleConfirmOrder fails db i).sessionWrite =
      (parseI64 (goTrim i.telegramId).toList).map (fun uid =>
        (uid, { state := stateWaitingPayment, broadCastType := resolvedPm i,
                contact := i.deliveryPhone, isPaid := false, count := 0 })) ∧
    (handleConfirmOrder fails db i).adminNote =
      some { tgId := goTrim i.telegramId, payMethod := some (resolvedPm i),
             total := goodsTotalOf i.items + deliveryPriceOf i,
             items := confirmItems i } ∧
    (handleConfirmOrder fails db i).receipt =
      sendOrderReceiptToUser (goTrim i.telegramId) (nextOrderId db)
        (confirmItems i) (goodsTotalOf i.items + deliveryPriceOf i)
        (resolvedPm i) := by
  by_cases hc1 : goTrim i.telegramId = "" ∨ i.items = []
  · simp [handleConfirmOrder, hc1, noEffect] at hok
  by_cases hc2 : i.items.any badItem
  · simp [handleConfirmOrder, hc1, hc2, noEffect] at hok
  by_cases h1 : fails TxStep.txBegin
  · simp [handleConfirmOrder, hc1, hc2, h1, noEffect] at hok
  by_cases h2 : fails TxStep.insertOrder
  · simp [handleConfirmOrder, hc1, hc2, h1, h2, noEffect] at hok
  by_cases h3 : fails TxStep.prepareItems
  · simp [handleConfirmOrder, hc1, hc2, h1, h2, h3, noEffect] at hok
  rcases hins : insertItems fails (nextOrderId db) (confirmItems i) 0 with _ | rows
  · simp [handleConfirmOrder, hc1, hc2, h1, h2, h3, hins, noEffect] at hok
  by_cases h4 : fails TxStep.txCommit
  · simp [handleConfirmOrder, hc1, hc2, h1, h2, h3, hins, h4, noEffect] at hok
  have hrows := insertItems_eq_map fails (nextOrderId db) (confirmItems i) 0
    rows hins
  subst hrows
  simp only [handleConfirmOrder, hc1, hc2, h1, h2, h3, hins, h4, if_false,
    Bool.false_eq_true, Except.ok.injEq] at hok ⊢
  exact ⟨hok.symm, trivial, trivial, trivial, trivial⟩

lemma handleCreateOrder_ok (fails : TxStep → Bool) (db : DB)
    (j : CreateOrderIn) (q : ℤ × ℤ × ℤ × ℤ)
    (hok : (handleCreateOrder fails db j).outcome = Except.ok q) :
    q = (nextOrderId db, goodsTotalOf j.items, 0, goodsTotalOf j.items) ∧
    (handleCreateOrder fails db j).db =
      { db with
        orders := db.orders ++
          [{ id := nextOrderId db, userId := goTrim j.telegramId,
             storeCode := nullIfEmpty
               ((lookupSelectedStore db (goTrim j.telegramId)).getD ""),
             totalAmount := goodsTotalOf j.items,
             status := "new" }],
        orderItems := db.orderItems ++
          j.items.map (mkItemRow (nextOrderId db)) } ∧
    (handleCreateOrder fails db j).sessionWrite = none ∧
    (handleCreateOrder fails db j).receipt =
      sendOrderReceiptToUser (goTrim j.telegramId) (nextOrderId db)
        j.items (goodsTotalOf j.items) paymentKaspiLink := by
  by_cases hc1 : goTrim j.telegramId = "" ∨ j.items = []
  · simp [handleCreateOrder, hc1, noEffect] at hok
  by_cases h1 : fails TxStep.txBegin
  · simp [handleCreateOrder, hc1, h1, noEffect] at hok
  by_cases hc2 : j.items.any badItem
  · simp [handleCreateOrder, hc1, h1, hc2, noEffect] at hok
  by_cases h2 : fails TxStep.insertOrder
  · simp [handleCreateOrder, hc1, hc2, h1, h2, noEffect] at hok
  by_cases h3 : fails TxStep.prepareItems
  · simp [handleCreateOrder, hc1, hc2, h1, h2, h3, noEffect] at hok
  rcases hins : insertItems fails (nextOrderId db) j.items 0 with _ | rows
  · simp [handleCreateOrder, hc1, hc2, h1, h2, h3, hins, noEffect] at hok
  by_cases h4 : fails TxStep.txCommit
  · simp [handleCreateOrder, hc1, hc2, h1, h2, h3, hins, h4, noEffect] at hok
  have hrows := insertItems_eq_map fails (nextOrderId db) j.items 0 rows hins
  subst hrows
  simp only [handleCreateOrder, hc1, hc2, h1, h2, h3, hins, h4, if_false,
    Bool.false_eq_true, Except.ok.injEq] at hok ⊢
  exact ⟨hok.symm, trivial, trivial, trivial⟩

lemma insertItems_no_failure (fails : TxStep → Bool) (hns : ∀ s, fails s = false)
    (oid : ℤ) : ∀ (items : List OrderItemIn) (idx : ℕ),
    insertItems fails oid items idx = some (items.map (mkItemRow oid)) := by
  intro items
  induction items with
  | nil => intro idx; simp [insertItems]
  | cons it rest ih => intro idx; simp [insertItems, hns, ih]

/-- When no transaction step fails and the request is well formed, the
confirm handler succeeds with the canonical payload. -/
lemma handleConfirmOrder_no_failure (fails : TxStep → Bool) (db : DB)
    (i : ConfirmOrderIn) (hns : ∀ s, fails s = false)
    (hne : ¬ (goTrim i.telegramId = "" ∨ i.items = []))
    (hval : i.items.any badItem = false) :
    (handleConfirmOrder fails db i).outcome =
      Except.ok (nextOrderId db, goodsTotalOf i.items, deliveryPriceOf i,
        goodsTotalOf i.items + deliveryPriceOf i) := by
  simp [handleConfirmOrder, hne, hval, hns, insertItems_no_failure fails hns]

/-- When no transaction step fails and the request is well formed, the
create handler succeeds with the canonical payload. -/
lemma handleCreateOrder_no_failure (fails : TxStep → Bool) (db : DB)
    (j : CreateOrderIn) (hns : ∀ s, fails s = false)
    (hne : ¬ (goTrim j.telegramId = "" ∨ j.items = []))
    (hval : j.items.any badItem = false) :
    (handleCreateOrder fails db j).outcome =
      Except.ok (nextOrderId db, goodsTotalOf j.items, 0,
        goodsTotalOf j.items) := by
  simp [handleCreateOrder, hne, hval, hns, insertItems_no_failure fails hns]

lemma lineAmount_deliveryLine : lineAmount deliveryLine = 1000 := by
  decide

lemma goodsTotal_append (l1 l2 : List OrderItemIn) :
    goodsTotalOf (l1 ++ l2) = goodsTotalOf l1 + goodsTotalOf l2 := by
  simp [goodsTotalOf_eq_sum]

lemma goodsTotal_confirmItems (i : ConfirmOrderIn) :
    goodsTotalOf (confirmItems i) = goodsTotalOf i.items + deliveryPriceOf i := by
  unfold confirmItems deliveryPriceOf
  by_cases h : eqFold i.deliveryType "delivery" <;>
    simp [h, goodsTotal_append, goodsTotalOf, lineAmount_deliveryLine]

lemma sum_amounts_map (oid : ℤ) (items : List OrderItemIn) :
    ((items.map (mkItemRow oid)).map (fun r => r.amount)).sum =
      goodsTotalOf items := by
  rw [List.map_map, goodsTotalOf_eq_sum]
  rfl

lemma setOrderPaid_totals (db : DB) (i : ℤ) :
    (setOrderPaid db i).orders.map (fun o => (o.id, o.totalAmount)) =
      db.orders.map (fun o => (o.id, o.totalAmount)) := by
  simp only [setOrderPaid, List.map_map]
  apply List.map_congr_left
  intro o _
  by_cases h : o.id = i <;> simp [h]

/-- The admin callback handler never touches any order's id or stored
total_amount: pay_ok rewrites status only, and the other verbs leave the
orders table alone. -/
lemma paymentCallback_preserves_order_totals (now : GoDate) (db : DB)
    (sess : Session) (data : String) :
    (paymentCallbackHandler now db sess data).db.orders.map
        (fun o => (o.id, o.totalAmount)) =
      db.orders.map (fun o => (o.id, o.totalAmount)) := by
  simp only [paymentCallbackHandler]
  split
  · rfl
  split
  · rfl
  split
  · rfl
  · split
    · split <;> simp [setOrderPaid_totals]
    · rfl
    · split <;> simp [setSubActive, setUserSubActive]
    · split <;> simp [setSubRejected]

-- ======================= claims =======================

/-- C1: order creation (handleConfirmOrder and handleCreateOrder)
persists the order row and all of its order_items rows atomically: under
every failure schedule, either the order row and every item row are
committed together with an ok outcome, or a failure at any transaction
step leaves zero rows in orders and in order_items for the new order id,
the ledger unchanged, and the generic persistence error "db error"
returned to the caller. -/
theorem c1_order_creation_atomic
    (fails fails2 : TxStep → Bool) (db db2 : DB)
    (i : ConfirmOrderIn) (j : CreateOrderIn)
    (hwf : WfItems db) (hwf2 : WfItems db2)
    (htg : ¬ goTrim i.telegramId = "") (hne : ¬ i.items = [])
    (hval : ∀ it ∈ i.items, badItem it = false)
    (htg2 : ¬ goTrim j.telegramId = "") (hne2 : ¬ j.items = [])
    (hval2 : ∀ it ∈ j.items, badItem it = false) :
    AtomicOutcome db (handleConfirmOrder fails db i) (confirmItems i) ∧
    AtomicOutcome db2 (handleCreateOrder fails2 db2 j) j.items :=
  ⟨handleConfirmOrder_atomic fails db i hwf htg hne hval,
   handleCreateOrder_atomic fails2 db2 j hwf2 htg2 hne2 hval2⟩

/-- C1 witness: a one-item confirm request against an empty ledger with a
commit failure injected, and a create request with no failure, both
satisfy the atomicity dichotomy. -/
theorem c1_order_creation_atomic_witness :
    (¬ goTrim "7" = "") ∧
    AtomicOutcome ⟨[], [], [], []⟩
      (handleConfirmOrder (fun s => decide (s = TxStep.txCommit)) ⟨[], [], [], []⟩
        ⟨"7", [⟨1, "Морковь", 2, "кг", 500⟩], "pickup", "", "", ""⟩)
      (confirmItems ⟨"7", [⟨1, "Морковь", 2, "кг", 500⟩], "pickup", "", "", ""⟩) ∧
    AtomicOutcome ⟨[], [], [], []⟩
      (handleCreateOrder (fun _ => false) ⟨[], [], [], []⟩
        ⟨"7", [⟨1, "Морковь", 2, "кг", 500⟩]⟩)
      (CreateOrderIn.mk "7" [⟨1, "Морковь", 2, "кг", 500⟩]).items :=
  ⟨by decide,
   (c1_order_creation_atomic (fun s => decide (s = TxStep.txCommit))
      (fun _ => false) ⟨[], [], [], []⟩ ⟨[], [], [], []⟩
      ⟨"7", [⟨1, "Морковь", 2, "кг", 500⟩], "pickup", "", "", ""⟩
      ⟨"7", [⟨1, "Морковь", 2, "кг", 500⟩]⟩
      (by intro it h; simp at h) (by intro it h; simp at h)
      (by decide) (by simp)
      (by intro it h; rw [List.mem_singleton] at h; subst h; norm_num [badItem])
      (by decide) (by simp)
      (by intro it h; rw [List.mem_singleton] at h; subst h;
          norm_num [badItem])).1,
   (c1_order_creation_atomic (fun s => decide (s = TxStep.txCommit))
      (fun _ => false) ⟨[], [], [], []⟩ ⟨[], [], [], []⟩
      ⟨"7", [⟨1, "Морковь", 2, "кг", 500⟩], "pickup", "", "", ""⟩
      ⟨"7", [⟨1, "Морковь", 2, "кг", 500⟩]⟩
      (by intro it h; simp at h) (by intro it h; simp at h)
      (by decide) (by simp)
      (by intro it h; rw [List.mem_singleton] at h; subst h; norm_num [badItem])
      (by decide) (by simp)
      (by intro it h; rw [List.mem_singleton] at h; subst h;
          norm_num [badItem])).2⟩

/-- C2 counterexample: at the quantity whose float64 value is the double
nearest 2/3 (6004799503160661 times 2 to the minus 53) and price 3 — a
valid item with qty > 0 and price >= 0 — Go's float64 multiply rounds the
exact product 2 - 2 to the minus 53 up to exactly 2.0 (round to nearest,
ties to even), so handleConfirmOrder computes and returns goodsTotal 2,
while the per-line truncated sum of the exact products qty times price is
1: the claimed equality fails on the program. -/
theorem c2_goods_total_counterexample :
    ((0 : ℚ) < (6004799503160661 : ℚ) / 9007199254740992 ∧ (0 : ℤ) ≤ 3) ∧
    (handleConfirmOrder (fun _ => false) ⟨[], [], [], []⟩
        ⟨"7", [⟨1, "x", (6004799503160661 : ℚ) / 9007199254740992, "kg", 3⟩],
         "pickup", "", "", ""⟩).outcome = Except.ok (1, 2, 0, 2) ∧
    (([⟨1, "x", (6004799503160661 : ℚ) / 9007199254740992, "kg", 3⟩] :
        List OrderItemIn).map
      (fun it => goTrunc (it.qty * (it.price : ℚ)))).sum = 1 ∧
    (2 : ℤ) ≠ 1 := by
  have hl : lineAmount
      ⟨1, "x", (6004799503160661 : ℚ) / 9007199254740992, "kg", 3⟩ = 2 := by
    show truncF64 (mulFloat64 ((6004799503160661 : ℚ) / 9007199254740992) 3) = 2
    rw [mulFloat64,
      show ((6004799503160661 : ℚ) / 9007199254740992).num =
        6004799503160661 by norm_num,
      show ((6004799503160661 : ℚ) / 9007199254740992).den =
        9007199254740992 by norm_num]
    decide
  refine ⟨⟨by norm_num, by norm_num⟩, ?_, by norm_num [goTrunc], by norm_num⟩
  rw [handleConfirmOrder_no_failure (fun _ => false) ⟨[], [], [], []⟩ _
    (fun _ => rfl) (by decide) (by norm_num [badItem])]
  rw [show goodsTotalOf
      [⟨1, "x", (6004799503160661 : ℚ) / 9007199254740992, "kg", 3⟩] = 2 from by
    simp [goodsTotalOf, hl]]
  decide

/-- C2 amended: for item lists with positive quantity and nonnegative
price, the goodsTotal an order creation returns is the sum over the items
of the float64 product qty times float64(price) truncated per line — Go
rounds each product to the nearest binary64 before the int64 conversion,
which can differ from the exact product — and per-line truncation
genuinely differs from truncating the full-precision sum of the rounded
products once, witnessed by a list it disagrees on. -/
theorem c2_goods_total_per_line_amended
    (fails fails2 : TxStep → Bool) (db db2 : DB)
    (i : ConfirmOrderIn) (j : CreateOrderIn)
    (hval : ∀ it ∈ i.items, 0 < it.qty ∧ 0 ≤ it.price)
    (hval2 : ∀ it ∈ j.items, 0 < it.qty ∧ 0 ≤ it.price)
    (p q : ℤ × ℤ × ℤ × ℤ)
    (hok : (handleConfirmOrder fails db i).outcome = Except.ok p)
    (hok2 : (handleCreateOrder fails2 db2 j).outcome = Except.ok q) :
    p.2.1 =
      (i.items.map (fun it => truncF64 (mulFloat64 it.qty it.price))).sum ∧
    q.2.1 =
      (j.items.map (fun it => truncF64 (mulFloat64 it.qty it.price))).sum ∧
    ∃ xs : List OrderItemIn, (∀ it ∈ xs, 0 < it.qty ∧ 0 ≤ it.price) ∧
      goodsTotalOf xs ≠
        goTrunc ((xs.map (fun it => (mulFloat64 it.qty it.price).toRat)).sum) := by
  obtain ⟨hp, -, -, -, -⟩ := handleConfirmOrder_ok fails db i p hok
  obtain ⟨hq, -, -, -⟩ := handleCreateOrder_ok fails2 db2 j q hok2
  refine ⟨?_, ?_, ?_⟩
  · rw [hp]
    simp only [goodsTotalOf_eq_sum]
    exact congrArg List.sum (List.map_congr_left fun it _ => rfl)
  · rw [hq]
    simp only [goodsTotalOf_eq_sum]
    exact congrArg List.sum (List.map_congr_left fun it _ => rfl)
  · refine ⟨[⟨0, "", 1/2, "", 3⟩, ⟨0, "", 1/2, "", 3⟩], ?_, ?_⟩
    · intro it hit
      simp only [List.mem_cons, List.not_mem_nil, or_false] at hit
      rcases hit with h | h <;> (subst h; exact ⟨by norm_num, by norm_num⟩)
    · have hf : mulFloat64 ((1 : ℚ) / 2) 3 = F64.mk 6755399441055744 (-52) := by
        rw [mulFloat64, show ((1 : ℚ) / 2).num = 1 by norm_num,
          show ((1 : ℚ) / 2).den = 2 by norm_num]
        decide
      have hl2 : lineAmount ⟨0, "", 1/2, "", 3⟩ = 1 := by
        show truncF64 (mulFloat64 ((1 : ℚ) / 2) 3) = 1
        rw [hf]
        decide
      have ht : (mulFloat64 ((1 : ℚ) / 2) 3).toRat = 3 / 2 := by
        rw [hf]
        show (6755399441055744 : ℚ) / 2 ^ (52 : ℕ) = 3 / 2
        norm_num
      simp only [goodsTotalOf, List.foldl, List.map, List.sum_cons,
        List.sum_nil]
      rw [hl2, ht]
      norm_num [goTrunc]

/-- C2 witness: a concrete two-handler run on the item qty 2 at price 500
with both hypotheses discharged; each float64 product here is exact, so
the goodsTotal 1000 equals the per-line truncated sum of rounded
products. -/
theorem c2_goods_total_per_line_amended_witness :
    (handleConfirmOrder (fun _ => false) ⟨[], [], [], []⟩
        ⟨"7", [⟨1, "x", 2, "kg", 500⟩], "pickup", "", "", ""⟩).outcome =
      Except.ok (1, 1000, 0, 1000) ∧
    (handleCreateOrder (fun _ => false) ⟨[], [], [], []⟩
        ⟨"7", [⟨1, "x", 2, "kg", 500⟩]⟩).outcome =
      Except.ok (1, 1000, 0, 1000) ∧
    (((1 : ℤ), (1000 : ℤ), (0 : ℤ), (1000 : ℤ)).2.1 =
        (([⟨1, "x", 2, "kg", 500⟩] : List OrderItemIn).map
          (fun it => truncF64 (mulFloat64 it.qty it.price))).sum ∧
      ((1 : ℤ), (1000 : ℤ), (0 : ℤ), (1000 : ℤ)).2.1 =
        (([⟨1, "x", 2, "kg", 500⟩] : List OrderItemIn).map
          (fun it => truncF64 (mulFloat64 it.qty it.price))).sum ∧
      ∃ xs : List OrderItemIn, (∀ it ∈ xs, 0 < it.qty ∧ 0 ≤ it.price) ∧
        goodsTotalOf xs ≠
          goTrunc ((xs.map
            (fun it => (mulFloat64 it.qty it.price).toRat)).sum)) := by
  have hok : (handleConfirmOrder (fun _ => false) ⟨[], [], [], []⟩
      ⟨"7", [⟨1, "x", 2, "kg", 500⟩], "pickup", "", "", ""⟩).outcome =
      Except.ok (1, 1000, 0, 1000) := by
    rw [handleConfirmOrder_no_failure (fun _ => false) ⟨[], [], [], []⟩ _
      (fun _ => rfl) (by decide) (by decide)]
    decide
  have hok2 : (handleCreateOrder (fun _ => false) ⟨[], [], [], []⟩
      ⟨"7", [⟨1, "x", 2, "kg", 500⟩]⟩).outcome =
      Except.ok (1, 1000, 0, 1000) := by
    rw [handleCreateOrder_no_failure (fun _ => false) ⟨[], [], [], []⟩ _
      (fun _ => rfl) (by decide) (by decide)]
    decide
  refine ⟨hok, hok2, ?_⟩
  exact c2_goods_total_per_line_amended (fun _ => false) (fun _ => false)
    ⟨[], [], [], []⟩ ⟨[], [], [], []⟩
    ⟨"7", [⟨1, "x", 2, "kg", 500⟩], "pickup", "", "", ""⟩
    ⟨"7", [⟨1, "x", 2, "kg", 500⟩]⟩
    (by intro it hit; rw [List.mem_singleton] at hit; subst hit;
        exact ⟨by norm_num, by norm_num⟩)
    (by intro it hit; rw [List.mem_singleton] at hit; subst hit;
        exact ⟨by norm_num, by norm_num⟩)
    (1, 1000, 0, 1000) (1, 1000, 0, 1000) hok hok2

/-- C3: for every order persisted by handleConfirmOrder, the stored
total_amount equals the sum of the stored order_items amounts (equally,
the sum over the submitted items plus the delivery surcharge); in the
delivery scenario the synthetic delivery line of amount 1000 is appended,
deliveryPrice is 1000 and total is goodsTotal plus 1000; and no later
admin callback ever rewrites a stored total. -/
theorem c3_total_amount_invariant
    (fails : TxStep → Bool) (db : DB) (i : ConfirmOrderIn)
    (hwf : WfItems db) (p : ℤ × ℤ × ℤ × ℤ)
    (hok : (handleConfirmOrder fails db i).outcome = Except.ok p) :
    (∃ o, ordersWithId (handleConfirmOrder fails db i).db (nextOrderId db) = [o] ∧
       o.totalAmount =
         ((itemsOfOrder (handleConfirmOrder fails db i).db (nextOrderId db)).map
           (fun r => r.amount)).sum ∧
       o.totalAmount = goodsTotalOf i.items + deliveryPriceOf i) ∧
    (eqFold i.deliveryType "delivery" = true →
       deliveryPriceOf i = 1000 ∧
       confirmItems i = i.items ++ [deliveryLine] ∧
       (mkItemRow (nextOrderId db) deliveryLine).amount = 1000 ∧
       p.2.2.2 = goodsTotalOf i.items + 1000) ∧
    (∀ (now2 : GoDate) (sess : Session) (cbData : String),
       (paymentCallbackHandler now2 (handleConfirmOrder fails db i).db sess
           cbData).db.orders.map (fun o => (o.id, o.totalAmount)) =
         (handleConfirmOrder fails db i).db.orders.map
           (fun o => (o.id, o.totalAmount))) := by
  obtain ⟨hp, hdb, -, -, -⟩ := handleConfirmOrder_ok fails db i p hok
  have horders : (handleConfirmOrder fails db i).db.orders = db.orders ++
      [{ id := nextOrderId db, userId := goTrim i.telegramId,
         storeCode := nullIfEmpty
           ((lookupSelectedStore db (goTrim i.telegramId)).getD ""),
         totalAmount := goodsTotalOf i.items + deliveryPriceOf i,
         status := "new" }] := by rw [hdb]
  have hitems : (handleConfirmOrder fails db i).db.orderItems =
      db.orderItems ++ (confirmItems i).map (mkItemRow (nextOrderId db)) := by
    rw [hdb]
  refine ⟨?_, ?_, fun now2 sess cbData =>
    paymentCallback_preserves_order_totals now2 _ sess cbData⟩
  · have h1 := ordersWithId_commit db _ _ horders rfl
    have h2 := itemsOfOrder_commit db _ _ hitems hwf
      (mkItemRow_orderId (nextOrderId db) (confirmItems i))
    refine ⟨_, h1, ?_, rfl⟩
    rw [h2, sum_amounts_map, goodsTotal_confirmItems]
  · intro hdel
    refine ⟨by simp [deliveryPriceOf, hdel], by simp [confirmItems, hdel],
      lineAmount_deliveryLine, ?_⟩
    rw [hp]
    simp [deliveryPriceOf, hdel]

/-- C3 witness: the delivery scenario of the spec, one item of qty 2 at
price 500 with delivery requested, total 2000. -/
theorem c3_total_amount_invariant_witness :
    (handleConfirmOrder (fun _ => false) ⟨[], [], [], []⟩
        ⟨"7", [⟨1, "x", 2, "kg", 500⟩], "delivery", "ул. Абая 1", "+7",
         ""⟩).outcome = Except.ok (1, 1000, 1000, 2000) ∧
    (∃ o, ordersWithId (handleConfirmOrder (fun _ => false) ⟨[], [], [], []⟩
        ⟨"7", [⟨1, "x", 2, "kg", 500⟩], "delivery", "ул. Абая 1", "+7",
         ""⟩).db (nextOrderId ⟨[], [], [], []⟩) = [o] ∧
       o.totalAmount =
         ((itemsOfOrder (handleConfirmOrder (fun _ => false) ⟨[], [], [], []⟩
             ⟨"7", [⟨1, "x", 2, "kg", 500⟩], "delivery", "ул. Абая 1", "+7",
              ""⟩).db (nextOrderId ⟨[], [], [], []⟩)).map
           (fun r => r.amount)).sum ∧
       o.totalAmount =
         goodsTotalOf [⟨1, "x", 2, "kg", 500⟩] +
           deliveryPriceOf ⟨"7", [⟨1, "x", 2, "kg", 500⟩], "delivery",
             "ул. Абая 1", "+7", ""⟩) := by
  have hok : (handleConfirmOrder (fun _ => false) ⟨[], [], [], []⟩
      ⟨"7", [⟨1, "x", 2, "kg", 500⟩], "delivery", "ул. Абая 1", "+7",
       ""⟩).outcome = Except.ok (1, 1000, 1000, 2000) := by
    rw [handleConfirmOrder_no_failure (fun _ => false) ⟨[], [], [], []⟩ _
      (fun _ => rfl) (by decide) (by decide)]
    decide
  exact ⟨hok,
    (c3_total_amount_invariant (fun _ => false) ⟨[], [], [], []⟩
      ⟨"7", [⟨1, "x", 2, "kg", 500⟩], "delivery", "ул. Абая 1", "+7", ""⟩
      (by intro it h; simp at h) (1, 1000, 1000, 2000) hok).1⟩

/-- C4: when a buyer in AwaitingPayment submits a document, a pending
subscription (the one with the greatest id) always wins the routing: the
document goes to the admin as subscription proof tagged sub_ok and
sub_reject with that subscription id and the buyer id, never as order
proof, even when the buyer has prior orders; only without any pending
subscription is it forwarded as proof for the most recent order. -/
theorem c4_receipt_routing (db : DB) (uid : ℤ) (st : UserState)
    (hpos : ∀ s ∈ db.subscriptions, 0 < s.id) :
    ((∃ s ∈ db.subscriptions, s.userId = intToStr uid ∧ s.status = "pending") →
      ∃ jId, routePaymentDocument db uid st = RouteResult.subProof jId uid ∧
        (∃ s ∈ db.subscriptions, s.id = jId ∧ s.userId = intToStr uid ∧
          s.status = "pending") ∧
        (∀ t ∈ db.subscriptions, t.userId = intToStr uid →
          t.status = "pending" → t.id ≤ jId) ∧
        routeTokens (RouteResult.subProof jId uid) =
          ("sub_ok:" ++ intToStr jId ++ ":" ++ intToStr uid,
           "sub_reject:" ++ intToStr jId ++ ":" ++ intToStr uid)) ∧
    ((¬ ∃ s ∈ db.subscriptions, s.userId = intToStr uid ∧
        s.status = "pending") →
      ∃ oid pm, routePaymentDocument db uid st =
          RouteResult.orderProof oid uid pm ∧
        ((∃ o ∈ db.orders, o.userId = intToStr uid) →
          ∃ o ∈ db.orders, o.userId = intToStr uid ∧ o.id = oid ∧
            ∀ o2 ∈ db.orders, o2.userId = intToStr uid → o2.id ≤ oid)) := by
  constructor
  · rintro ⟨a, haSub, haU, haP⟩
    have haPend : a ∈ db.subscriptions.filter
        (fun s => s.userId = intToStr uid ∧ s.status = "pending") := by
      simp [List.mem_filter, haSub, haU, haP]
    obtain ⟨m, hm, hmMem, -⟩ :=
      maxBy_spec (fun s => s.id) _ a haPend
    have hmSub : m ∈ db.subscriptions := (List.mem_filter.mp hmMem).1
    have hmProps : m.userId = intToStr uid ∧ m.status = "pending" := by
      have h := (List.mem_filter.mp hmMem).2
      simpa using h
    have hmPos : (0 : ℤ) < m.id := hpos m hmSub
    refine ⟨m.id, ?_, ⟨m, hmSub, rfl, hmProps.1, hmProps.2⟩, ?_, rfl⟩
    · simp only [routePaymentDocument]
      rw [hm]
      simp [hmPos]
    · intro t htSub htU htP
      have htPend : t ∈ db.subscriptions.filter
          (fun s => s.userId = intToStr uid ∧ s.status = "pending") := by
        simp [List.mem_filter, htSub, htU, htP]
      obtain ⟨m2, hm2, -, hle⟩ := maxBy_spec (fun s => s.id) _ t htPend
      rw [hm] at hm2
      cases hm2
      exact hle
  · intro hno
    have hfilt : db.subscriptions.filter
        (fun s => s.userId = intToStr uid ∧ s.status = "pending") = [] := by
      apply List.filter_eq_nil_iff.mpr
      intro s hs h
      simp only [decide_eq_true_eq] at h
      exact hno ⟨s, hs, h.1, h.2⟩
    have hroute : routePaymentDocument db uid st = orderProofOf db uid st := by
      simp only [routePaymentDocument]
      rw [hfilt]
      rfl
    rcases hcase : maxBy (fun o => o.id)
        (db.orders.filter (fun o => o.userId = intToStr uid)) with _ | m
    · refine ⟨0, if st.broadCastType = "" then paymentKaspiLink
          else st.broadCastType, ?_, ?_⟩
      · rw [hroute]
        simp only [orderProofOf]
        rw [hcase]
      · rintro ⟨o, ho, hoU⟩
        have hoF : o ∈ db.orders.filter (fun x => x.userId = intToStr uid) := by
          simp [List.mem_filter, ho, hoU]
        obtain ⟨m2, hm2, -, -⟩ := maxBy_spec (fun o => o.id) _ o hoF
        rw [hcase] at hm2
        cases hm2
    · refine ⟨m.id, if st.broadCastType = "" then paymentKaspiLink
          else st.broadCastType, ?_, ?_⟩
      · rw [hroute]
        simp only [orderProofOf]
        rw [hcase]
      · intro _
        have hmF := maxBy_mem (fun o => o.id) _ m hcase
        have hmOrd : m ∈ db.orders := (List.mem_filter.mp hmF).1
        have hmU : m.userId = intToStr uid := by
          have h := (List.mem_filter.mp hmF).2
          simpa using h
        refine ⟨m, hmOrd, hmU, rfl, ?_⟩
        intro o2 ho2 ho2U
        have ho2F : o2 ∈ db.orders.filter (fun x => x.userId = intToStr uid) := by
          simp [List.mem_filter, ho2, ho2U]
        obtain ⟨m2, hm2, -, hle⟩ := maxBy_spec (fun o => o.id) _ o2 ho2F
        rw [hcase] at hm2
        cases hm2
        exact hle

/-- C4 witness: a buyer with both a pending subscription (id 5) and a
prior order (id 3) is routed to subscription proof for id 5. -/
theorem c4_receipt_routing_witness :
    (∀ s ∈ (DB.mk [⟨3, "7", none, 1000, "new"⟩] []
        [⟨5, "7", "+7", "pending", 3000, none⟩] []).subscriptions,
      (0 : ℤ) < s.id) ∧
    (∃ s ∈ (DB.mk [⟨3, "7", none, 1000, "new"⟩] []
        [⟨5, "7", "+7", "pending", 3000, none⟩] []).subscriptions,
      s.userId = intToStr 7 ∧ s.status = "pending") ∧
    (∃ jId, routePaymentDocument (DB.mk [⟨3, "7", none, 1000, "new"⟩] []
        [⟨5, "7", "+7", "pending", 3000, none⟩] []) 7 zeroUserState =
      RouteResult.subProof jId 7) := by
  refine ⟨by decide, by decide, ?_⟩
  obtain ⟨jId, hroute, -, -, -⟩ :=
    (c4_receipt_routing (DB.mk [⟨3, "7", none, 1000, "new"⟩] []
        [⟨5, "7", "+7", "pending", 3000, none⟩] []) 7 zeroUserState
      (by decide)).1 (by decide)
  exact ⟨jId, hroute⟩

lemma paymentCallback_payOk (now : GoDate) (db : DB) (sess : Session)
    (data : String) (i u : ℤ)
    (hact : cbActionOf (trimChars data.toList) = some CbAction.payOk)
    (hlen : (splitColon (trimChars data.toList) []).length = 3)
    (hid : parseI64 (((splitColon (trimChars data.toList) []).get? 1).getD [])
      = some i)
    (huid : parseI64 (((splitColon (trimChars data.toList) []).get? 2).getD [])
      = some u) :
    paymentCallbackHandler now db sess data =
      { db := if i > 0 then setOrderPaid db i else db,
        sess := if u ≠ 0 then sessResetPaid sess u else sess,
        msgs := [CbMsg.answerCallback "Оплата заказа подтверждена ✅"] ++
          (if u ≠ 0 then
            [CbMsg.sendToUser u ("✅ Ваша оплата по заказу №" ++ intToStr i ++
              " подтверждена! Спасибо за заказ.")]
           else []) } := by
  have hne : ¬ trimChars data.toList = [] := by
    intro h
    rw [h] at hact
    simp [cbActionOf, hasPfx] at hact
  simp only [paymentCallbackHandler, if_neg hne, hact, hlen, ne_eq,
    not_true_eq_false, if_false, hid, huid, Option.getD_some]

lemma setOrderPaid_status (db : DB) (i : ℤ) :
    ∀ o ∈ (setOrderPaid db i).orders, o.id = i → o.status = "paid" := by
  intro o ho hoid
  simp only [setOrderPaid, List.mem_map] at ho
  obtain ⟨o0, ho0, heq⟩ := ho
  by_cases h : o0.id = i
  · rw [← heq]
    simp [h]
  · rw [← heq] at hoid
    simp [h] at hoid

lemma setOrderPaid_mem (db : DB) (i : ℤ) (hex : ∃ o ∈ db.orders, o.id = i) :
    ∃ o ∈ (setOrderPaid db i).orders, o.id = i := by
  obtain ⟨o, ho, hoid⟩ := hex
  refine ⟨if o.id = i then { o with status := "paid" } else o, ?_, ?_⟩
  · simp only [setOrderPaid, List.mem_map]
    exact ⟨o, ho, rfl⟩
  · simp [hoid]

lemma setOrderPaid_orders_idem (db : DB) (i : ℤ) :
    (setOrderPaid (setOrderPaid db i) i).orders = (setOrderPaid db i).orders := by
  simp only [setOrderPaid, List.map_map]
  apply List.map_congr_left
  intro o _
  by_cases h : o.id = i <;> simp [h]

/-- C5: delivering the same pay_ok token twice is idempotent in its end
state: after the first delivery the order carries status "paid", after the
second it still does, and the second delivery leaves the orders table
exactly as the first left it (while still re-emitting the notification). -/
theorem c5_pay_ok_idempotent
    (now now2 : GoDate) (db : DB) (sess : Session) (data : String) (i u : ℤ)
    (hact : cbActionOf (trimChars data.toList) = some CbAction.payOk)
    (hlen : (splitColon (trimChars data.toList) []).length = 3)
    (hid : parseI64 (((splitColon (trimChars data.toList) []).get? 1).getD [])
      = some i)
    (huid : parseI64 (((splitColon (trimChars data.toList) []).get? 2).getD [])
      = some u)
    (hpos : 0 < i) (hex : ∃ o ∈ db.orders, o.id = i) :
    (∀ o ∈ (paymentCallbackHandler now db sess data).db.orders,
      o.id = i → o.status = "paid") ∧
    (∃ o ∈ (paymentCallbackHandler now db sess data).db.orders, o.id = i) ∧
    (∀ o ∈ (paymentCallbackHandler now2
        (paymentCallbackHandler now db sess data).db
        (paymentCallbackHandler now db sess data).sess data).db.orders,
      o.id = i → o.status = "paid") ∧
    (paymentCallbackHandler now2 (paymentCallbackHandler now db sess data).db
        (paymentCallbackHandler now db sess data).sess data).db.orders =
      (paymentCallbackHandler now db sess data).db.orders ∧
    (paymentCallbackHandler now2 (paymentCallbackHandler now db sess data).db
        (paymentCallbackHandler now db sess data).sess data).msgs ≠ [] := by
  have h1 := paymentCallback_payOk now db sess data i u hact hlen hid huid
  have h2 := paymentCallback_payOk now2
    (paymentCallbackHandler now db sess data).db
    (paymentCallbackHandler now db sess data).sess data i u hact hlen hid huid
  rw [h1] at h2 ⊢
  rw [h2]
  simp only [if_pos hpos]
  refine ⟨setOrderPaid_status db i, setOrderPaid_mem db i hex,
    ?_, setOrderPaid_orders_idem db i, by simp⟩
  intro o ho hoid
  rw [setOrderPaid_orders_idem db i] at ho
  exact setOrderPaid_status db i o ho hoid

/-- C5 witness: the token pay_ok:5:7 applied twice to a ledger holding
order 5 in status "new". -/
theorem c5_pay_ok_idempotent_witness :
    cbActionOf (trimChars "pay_ok:5:7".toList) = some CbAction.payOk ∧
    (0 : ℤ) < 5 ∧
    (∃ o ∈ (DB.mk [⟨5, "7", none, 2000, "new"⟩] [] [] []).orders, o.id = 5) ∧
    (∀ o ∈ (paymentCallbackHandler ⟨2025, 1, 15⟩
        (DB.mk [⟨5, "7", none, 2000, "new"⟩] [] [] [])
        (fun _ => none) "pay_ok:5:7").db.orders,
      o.id = 5 → o.status = "paid") ∧
    (paymentCallbackHandler ⟨2025, 2, 15⟩
        (paymentCallbackHandler ⟨2025, 1, 15⟩
          (DB.mk [⟨5, "7", none, 2000, "new"⟩] [] [] [])
          (fun _ => none) "pay_ok:5:7").db
        (paymentCallbackHandler ⟨2025, 1, 15⟩
          (DB.mk [⟨5, "7", none, 2000, "new"⟩] [] [] [])
          (fun _ => none) "pay_ok:5:7").sess "pay_ok:5:7").db.orders =
      (paymentCallbackHandler ⟨2025, 1, 15⟩
        (DB.mk [⟨5, "7", none, 2000, "new"⟩] [] [] [])
        (fun _ => none) "pay_ok:5:7").db.orders := by
  have h := c5_pay_ok_idempotent ⟨2025, 1, 15⟩ ⟨2025, 2, 15⟩
    (DB.mk [⟨5, "7", none, 2000, "new"⟩] [] [] []) (fun _ => none)
    "pay_ok:5:7" 5 7 (by decide) (by decide) (by decide) (by decide)
    (by decide) (by decide)
  exact ⟨by decide, by decide, by decide, h.1, h.2.2.2.1⟩

lemma paymentCallback_subOk (now : GoDate) (db : DB) (sess : Session)
    (data : String) (i u : ℤ)
    (hact : cbActionOf (trimChars data.toList) = some CbAction.subOk)
    (hlen : (splitColon (trimChars data.toList) []).length = 3)
    (hid : parseI64 (((splitColon (trimChars data.toList) []).get? 1).getD [])
      = some i)
    (huid : parseI64 (((splitColon (trimChars data.toList) []).get? 2).getD [])
      = some u)
    (hpos : 0 < i) (hu : u ≠ 0) :
    paymentCallbackHandler now db sess data =
      { db := setUserSubActive (setSubActive db i (addOneMonth now))
          (intToStr u) (addOneMonth now),
        sess := sessResetPaid sess u,
        msgs := [CbMsg.answerCallback "Подписка активирована ✅",
          CbMsg.sendToUser u
            ("✅ Ваша подписка на «АГРО Клуб Оптовых Цен» активирована!\nДоступ к оптовым ценам до: " ++
             fmtDate (addOneMonth now) ++ ".")] } := by
  have hne : ¬ trimChars data.toList = [] := by
    intro h
    rw [h] at hact
    simp [cbActionOf, hasPfx] at hact
  simp only [paymentCallbackHandler, if_neg hne, hact, hlen, ne_eq,
    not_true_eq_false, if_false, hid, huid, Option.getD_some]
  rw [if_pos ⟨hpos, hu⟩]

lemma setSubActive_status (db : DB) (i : ℤ) (vu : GoDate) :
    ∀ s ∈ (setSubActive db i vu).subscriptions, s.id = i →
      s.status = "active" ∧ s.validUntil = some vu := by
  intro s hs hsid
  simp only [setSubActive, List.mem_map] at hs
  obtain ⟨s0, hs0, heq⟩ := hs
  by_cases h : s0.id = i
  · rw [← heq]
    simp [h]
  · rw [← heq] at hsid
    simp [h] at hsid

lemma setUserSubActive_status (db : DB) (uStr : String) (vu : GoDate) :
    ∀ usr ∈ (setUserSubActive db uStr vu).users, usr.userId = uStr →
      usr.subStatus = "active" ∧ usr.subUntil = some vu := by
  intro usr hu huid
  simp only [setUserSubActive, List.mem_map] at hu
  obtain ⟨u0, hu0, heq⟩ := hu
  by_cases h : u0.userId = uStr
  · rw [← heq]
    simp [h]
  · rw [← heq] at huid
    simp [h] at huid

/-- C6 counterexample: the token sub_ok:7:0 has two parseable ids, yet
the handler activates nothing: a pending subscription with id 7 stays
"pending" (its guard requires a nonzero buyer id), contradicting the
claim that every sub_ok callback with parseable ids activates the
subscription. -/
theorem c6_sub_ok_counterexample :
    parseI64 (((splitColon (trimChars "sub_ok:7:0".toList) []).get? 1).getD [])
      = some 7 ∧
    parseI64 (((splitColon (trimChars "sub_ok:7:0".toList) []).get? 2).getD [])
      = some 0 ∧
    (∃ s ∈ (paymentCallbackHandler ⟨2025, 1, 31⟩
        (DB.mk [] [] [⟨7, "9", "+7", "pending", 3000, none⟩]
          [⟨"9", "user", none, "pending", none, none⟩])
        (fun _ => none) "sub_ok:7:0").db.subscriptions,
      s.id = 7 ∧ s.status = "pending" ∧ ¬ s.status = "active") := by
  decide

/-- C6 amended: for sub_ok tokens whose subscription id parses to a
positive value and whose buyer id parses to a nonzero value, the handler
computes validUntil as the decision time plus one calendar month by total
calendar arithmetic (month-length and leap-year overflow normalised, e.g.
Jan 31 2025 to Mar 3 2025, Jan 31 2024 to Mar 2 2024), sets the
subscription active with that validUntil, and sets the user row's
sub_status to active with sub_until the same validUntil. -/
theorem c6_sub_ok_amended
    (now : GoDate) (db : DB) (sess : Session) (data : String) (i u : ℤ)
    (hact : cbActionOf (trimChars data.toList) = some CbAction.subOk)
    (hlen : (splitColon (trimChars data.toList) []).length = 3)
    (hid : parseI64 (((splitColon (trimChars data.toList) []).get? 1).getD [])
      = some i)
    (huid : parseI64 (((splitColon (trimChars data.toList) []).get? 2).getD [])
      = some u)
    (hpos : 0 < i) (hu : u ≠ 0) :
    (∀ s ∈ (paymentCallbackHandler now db sess data).db.subscriptions,
      s.id = i → s.status = "active" ∧ s.validUntil = some (addOneMonth now)) ∧
    (∀ usr ∈ (paymentCallbackHandler now db sess data).db.users,
      usr.userId = intToStr u →
        usr.subStatus = "active" ∧ usr.subUntil = some (addOneMonth now)) ∧
    addOneMonth ⟨2025, 1, 31⟩ = ⟨2025, 3, 3⟩ ∧
    addOneMonth ⟨2024, 1, 31⟩ = ⟨2024, 3, 2⟩ ∧
    addOneMonth ⟨2024, 12, 15⟩ = ⟨2025, 1, 15⟩ ∧
    addOneMonth ⟨2025, 10, 31⟩ = ⟨2025, 12, 1⟩ := by
  have h := paymentCallback_subOk now db sess data i u hact hlen hid huid
    hpos hu
  rw [h]
  refine ⟨?_, ?_, by decide, by decide, by decide, by decide⟩
  · intro s hs hsid
    exact setSubActive_status db i (addOneMonth now) s hs hsid
  · intro usr husr huid2
    exact setUserSubActive_status _ (intToStr u) (addOneMonth now) usr husr huid2

/-- C6 witness: sub_ok:7:9 delivered on 2025-01-31 against a pending
subscription id 7 of buyer 9. -/
theorem c6_sub_ok_amended_witness :
    cbActionOf (trimChars "sub_ok:7:9".toList) = some CbAction.subOk ∧
    (0 : ℤ) < 7 ∧ (9 : ℤ) ≠ 0 ∧
    ((∀ s ∈ (paymentCallbackHandler ⟨2025, 1, 31⟩
        (DB.mk [] [] [⟨7, "9", "+7", "pending", 3000, none⟩]
          [⟨"9", "user", none, "pending", none, none⟩])
        (fun _ => none) "sub_ok:7:9").db.subscriptions,
      s.id = 7 → s.status = "active" ∧
        s.validUntil = some (addOneMonth ⟨2025, 1, 31⟩)) ∧
     (∀ usr ∈ (paymentCallbackHandler ⟨2025, 1, 31⟩
        (DB.mk [] [] [⟨7, "9", "+7", "pending", 3000, none⟩]
          [⟨"9", "user", none, "pending", none, none⟩])
        (fun _ => none) "sub_ok:7:9").db.users,
      usr.userId = intToStr 9 →
        usr.subStatus = "active" ∧
          usr.subUntil = some (addOneMonth ⟨2025, 1, 31⟩))) := by
  have h := c6_sub_ok_amended ⟨2025, 1, 31⟩
    (DB.mk [] [] [⟨7, "9", "+7", "pending", 3000, none⟩]
      [⟨"9", "user", none, "pending", none, none⟩])
    (fun _ => none) "sub_ok:7:9" 7 9 (by decide) (by decide) (by decide)
    (by decide) (by decide) (by decide)
  exact ⟨by decide, by decide, by decide, h.1, h.2.1⟩

/-- C7 counterexample: the malformed token pay_ok:5:x, whose buyer id
does not parse as an integer, is not silently dropped: the handler writes
the Ledger Store (order 5 flips from "new" to "paid") and still answers
the admin's callback, so both "no Ledger Store write" and "no message to
buyer or admin" fail on it. -/
theorem c7_malformed_token_counterexample :
    parseI64 (((splitColon (trimChars "pay_ok:5:x".toList) []).get? 2).getD [])
      = none ∧
    (∃ o ∈ (paymentCallbackHandler ⟨2025, 1, 15⟩
        (DB.mk [⟨5, "7", none, 2000, "new"⟩] [] [] [])
        (fun _ => none) "pay_ok:5:x").db.orders,
      o.id = 5 ∧ o.status = "paid") ∧
    ¬ (paymentCallbackHandler ⟨2025, 1, 15⟩
        (DB.mk [⟨5, "7", none, 2000, "new"⟩] [] [] [])
        (fun _ => none) "pay_ok:5:x").db =
      DB.mk [⟨5, "7", none, 2000, "new"⟩] [] [] [] ∧
    ¬ (paymentCallbackHandler ⟨2025, 1, 15⟩
        (DB.mk [⟨5, "7", none, 2000, "new"⟩] [] [] [])
        (fun _ => none) "pay_ok:5:x").msgs = [] := by
  decide

/-- C7 amended: a recognised token with a field count other than three is
fully dropped, with no write and no message at all; for a three-field
token each id is parsed independently with a parse failure read as zero,
so an unparseable entity id forces no Ledger Store write, and an
unparseable buyer id forces no session write and no message to the buyer
(only the admin callback acknowledgement can still be emitted); ids that
do parse are still acted on. -/
theorem c7_malformed_tokens_amended (now : GoDate) (db : DB) (sess : Session)
    (data : String) :
    (∀ action, cbActionOf (trimChars data.toList) = some action →
      ¬ (splitColon (trimChars data.toList) []).length = 3 →
      paymentCallbackHandler now db sess data =
        { db := db, sess := sess, msgs := [] }) ∧
    (∀ action, cbActionOf (trimChars data.toList) = some action →
      (splitColon (trimChars data.toList) []).length = 3 →
      parseI64 (((splitColon (trimChars data.toList) []).get? 1).getD [])
        = none →
      (paymentCallbackHandler now db sess data).db = db) ∧
    (∀ action, cbActionOf (trimChars data.toList) = some action →
      (splitColon (trimChars data.toList) []).length = 3 →
      parseI64 (((splitColon (trimChars data.toList) []).get? 2).getD [])
        = none →
      (paymentCallbackHandler now db sess data).sess = sess ∧
      ∀ m ∈ (paymentCallbackHandler now db sess data).msgs,
        isBuyerMsg m = false) := by
  have hne : ∀ (action : CbAction),
      cbActionOf (trimChars data.toList) = some action →
      ¬ trimChars data.toList = [] := by
    intro action hact h
    rw [h] at hact
    simp [cbActionOf, hasPfx] at hact
  refine ⟨?_, ?_, ?_⟩
  · intro action hact hlen
    simp only [paymentCallbackHandler, if_neg (hne action hact), hact,
      ne_eq, hlen, not_false_eq_true, if_true]
  · intro action hact hlen hid
    have hne2 := hne action hact
    cases action <;>
      (simp only [paymentCallbackHandler, if_neg hne2, hact, hlen, ne_eq,
        not_true_eq_false, if_false, hid, Option.getD_none]
       try simp)
  · intro action hact hlen huid
    have hne2 := hne action hact
    cases action with
    | payOk =>
      simp only [paymentCallbackHandler, if_neg hne2, hact, hlen, ne_eq,
        not_true_eq_false, if_false, huid, Option.getD_none]
      refine ⟨by simp, ?_⟩
      intro m hm
      simp at hm
      simp [hm, isBuyerMsg]
    | payReject =>
      simp only [paymentCallbackHandler, if_neg hne2, hact, hlen, ne_eq,
        not_true_eq_false, if_false, huid, Option.getD_none]
      refine ⟨by simp, ?_⟩
      intro m hm
      simp at hm
      simp [hm, isBuyerMsg]
    | subOk =>
      simp only [paymentCallbackHandler, if_neg hne2, hact, hlen, ne_eq,
        not_true_eq_false, if_false, huid, Option.getD_none, and_false]
      exact ⟨trivial, fun m hm => absurd hm (List.not_mem_nil m)⟩
    | subReject =>
      simp only [paymentCallbackHandler, if_neg hne2, hact, hlen, ne_eq,
        not_true_eq_false, if_false, huid, Option.getD_none]
      refine ⟨by simp, ?_⟩
      intro m hm
      simp at hm
      simp [hm, isBuyerMsg]

/-- C7 amended witness: the four-field token pay_ok:1:2:3 is fully
dropped, and sub_reject:x:y (both ids unparseable) changes neither store
and sends nothing to the buyer. -/
theorem c7_malformed_tokens_amended_witness :
    cbActionOf (trimChars "pay_ok:1:2:3".toList) = some CbAction.payOk ∧
    ¬ (splitColon (trimChars "pay_ok:1:2:3".toList) []).length = 3 ∧
    paymentCallbackHandler ⟨2025, 1, 15⟩
        (DB.mk [] [] [⟨7, "9", "+7", "pending", 3000, none⟩] [])
        (fun _ => none) "pay_ok:1:2:3" =
      { db := DB.mk [] [] [⟨7, "9", "+7", "pending", 3000, none⟩] [],
        sess := fun _ => none, msgs := [] } ∧
    (paymentCallbackHandler ⟨2025, 1, 15⟩
        (DB.mk [] [] [⟨7, "9", "+7", "pending", 3000, none⟩] [])
        (fun _ => none) "sub_reject:x:y").db =
      DB.mk [] [] [⟨7, "9", "+7", "pending", 3000, none⟩] [] ∧
    (∀ m ∈ (paymentCallbackHandler ⟨2025, 1, 15⟩
        (DB.mk [] [] [⟨7, "9", "+7", "pending", 3000, none⟩] [])
        (fun _ => none) "sub_reject:x:y").msgs, isBuyerMsg m = false) := by
  refine ⟨by decide, by decide, ?_, ?_, ?_⟩
  · exact (c7_malformed_tokens_amended ⟨2025, 1, 15⟩
      (DB.mk [] [] [⟨7, "9", "+7", "pending", 3000, none⟩] [])
      (fun _ => none) "pay_ok:1:2:3").1 CbAction.payOk (by decide) (by decide)
  · exact (c7_malformed_tokens_amended ⟨2025, 1, 15⟩
      (DB.mk [] [] [⟨7, "9", "+7", "pending", 3000, none⟩] [])
      (fun _ => none) "sub_reject:x:y").2.1 CbAction.subReject (by decide)
      (by decide) (by decide)
  · exact ((c7_malformed_tokens_amended ⟨2025, 1, 15⟩
      (DB.mk [] [] [⟨7, "9", "+7", "pending", 3000, none⟩] [])
      (fun _ => none) "sub_reject:x:y").2.2 CbAction.subReject (by decide)
      (by decide) (by decide)).2

lemma paymentCallback_subReject (now : GoDate) (db : DB) (sess : Session)
    (data : String) (i u : ℤ)
    (hact : cbActionOf (trimChars data.toList) = some CbAction.subReject)
    (hlen : (splitColon (trimChars data.toList) []).length = 3)
    (hid : parseI64 (((splitColon (trimChars data.toList) []).get? 1).getD [])
      = some i)
    (huid : parseI64 (((splitColon (trimChars data.toList) []).get? 2).getD [])
      = some u) :
    paymentCallbackHandler now db sess data =
      { db := if i > 0 then setSubRejected db i else db,
        sess := sess,
        msgs := [CbMsg.answerCallback "Оплата подписки отклонена ❌"] ++
          (if u ≠ 0 then
            [CbMsg.sendToUser u
              "❌ Оплата подписки не прошла проверку.\nПожалуйста, свяжитесь с администратором или отправьте корректный чек ещё раз."]
           else []) } := by
  have hne : ¬ trimChars data.toList = [] := by
    intro h
    rw [h] at hact
    simp [cbActionOf, hasPfx] at hact
  simp only [paymentCallbackHandler, if_neg hne, hact, hlen, ne_eq,
    not_true_eq_false, if_false, hid, huid, Option.getD_some]

lemma setSubRejected_status (db : DB) (i : ℤ) :
    ∀ s ∈ (setSubRejected db i).subscriptions, s.id = i →
      s.status = "rejected" := by
  intro s hs hsid
  simp only [setSubRejected, List.mem_map] at hs
  obtain ⟨s0, hs0, heq⟩ := hs
  by_cases h : s0.id = i
  · rw [← heq]
    simp [h]
  · rw [← heq] at hsid
    simp [h] at hsid

/-- C8: a sub_reject token with a parseable positive subscription id sets
that subscription's status to "rejected" and performs no write at all to
the users table (and none to the session store): both are returned
unchanged. -/
theorem c8_sub_reject_frame
    (now : GoDate) (db : DB) (sess : Session) (data : String) (i u : ℤ)
    (hact : cbActionOf (trimChars data.toList) = some CbAction.subReject)
    (hlen : (splitColon (trimChars data.toList) []).length = 3)
    (hid : parseI64 (((splitColon (trimChars data.toList) []).get? 1).getD [])
      = some i)
    (huid : parseI64 (((splitColon (trimChars data.toList) []).get? 2).getD [])
      = some u)
    (hpos : 0 < i) (hex : ∃ s ∈ db.subscriptions, s.id = i) :
    (∀ s ∈ (paymentCallbackHandler now db sess data).db.subscriptions,
      s.id = i → s.status = "rejected") ∧
    (∃ s ∈ (paymentCallbackHandler now db sess data).db.subscriptions,
      s.id = i) ∧
    (paymentCallbackHandler now db sess data).db.users = db.users ∧
    (paymentCallbackHandler now db sess data).sess = sess := by
  rw [paymentCallback_subReject now db sess data i u hact hlen hid huid]
  simp only [if_pos hpos]
  refine ⟨setSubRejected_status db i, ?_, by trivial, by trivial⟩
  obtain ⟨s, hs, hsid⟩ := hex
  refine ⟨if s.id = i then { s with status := "rejected" } else s, ?_, ?_⟩
  · simp only [setSubRejected, List.mem_map]
    exact ⟨s, hs, rfl⟩
  · simp [hsid]

/-- C8 witness: sub_reject:7:9 against a ledger holding pending
subscription 7 and a user row for buyer 9. -/
theorem c8_sub_reject_frame_witness :
    cbActionOf (trimChars "sub_reject:7:9".toList) = some CbAction.subReject ∧
    (0 : ℤ) < 7 ∧
    (∃ s ∈ (DB.mk [] [] [⟨7, "9", "+7", "pending", 3000, none⟩]
        [⟨"9", "user", none, "pending", none, none⟩]).subscriptions,
      s.id = 7) ∧
    ((∀ s ∈ (paymentCallbackHandler ⟨2025, 1, 15⟩
        (DB.mk [] [] [⟨7, "9", "+7", "pending", 3000, none⟩]
          [⟨"9", "user", none, "pending", none, none⟩])
        (fun _ => none) "sub_reject:7:9").db.subscriptions,
      s.id = 7 → s.status = "rejected") ∧
     (paymentCallbackHandler ⟨2025, 1, 15⟩
        (DB.mk [] [] [⟨7, "9", "+7", "pending", 3000, none⟩]
          [⟨"9", "user", none, "pending", none, none⟩])
        (fun _ => none) "sub_reject:7:9").db.users =
      [⟨"9", "user", none, "pending", none, none⟩]) := by
  have h := c8_sub_reject_frame ⟨2025, 1, 15⟩
    (DB.mk [] [] [⟨7, "9", "+7", "pending", 3000, none⟩]
      [⟨"9", "user", none, "pending", none, none⟩])
    (fun _ => none) "sub_reject:7:9" 7 9 (by decide) (by decide) (by decide)
    (by decide) (by decide) (by decide)
  exact ⟨by decide, by decide, by decide, h.1, h.2.2.1⟩

lemma subDue_expired (now : GoDate) (s : SubscriptionRow) :
    subDue now { s with status := "expired" } = false := by
  simp [subDue]

lemma userDue_expired (now : GoDate) (u : UserRow) :
    userDue now { u with subStatus := "expired", subUntil := none } = false := by
  simp [userDue]

/-- C9: a sweep tick transitions exactly the due rows: every active
subscription past its validUntil reappears as "expired", every other
subscription row is untouched, and no due row survives; user rows are
treated the same with subUntil cleared; and the sweep is idempotent, a
second run producing zero additional row changes. -/
theorem c9_expiry_sweep (now : GoDate) (db : DB) :
    (∀ s ∈ db.subscriptions, subDue now s = true →
      { s with status := "expired" } ∈ (sweepExpired now db).subscriptions) ∧
    (∀ s ∈ db.subscriptions, subDue now s = false →
      s ∈ (sweepExpired now db).subscriptions) ∧
    (∀ s ∈ (sweepExpired now db).subscriptions, subDue now s = false) ∧
    (∀ u ∈ db.users, userDue now u = true →
      { u with subStatus := "expired", subUntil := none } ∈
        (sweepExpired now db).users) ∧
    (∀ u ∈ db.users, userDue now u = false →
      u ∈ (sweepExpired now db).users) ∧
    (∀ u ∈ (sweepExpired now db).users, userDue now u = false) ∧
    sweepExpired now (sweepExpired now db) = sweepExpired now db := by
  refine ⟨?_, ?_, ?_, ?_, ?_, ?_, ?_⟩
  · intro s hs h
    have hmem := List.mem_map_of_mem
      (fun s => if subDue now s then { s with status := "expired" } else s) hs
    simpa [h, sweepExpired] using hmem
  · intro s hs h
    have hmem := List.mem_map_of_mem
      (fun s => if subDue now s then { s with status := "expired" } else s) hs
    simpa [h, sweepExpired] using hmem
  · intro s hs
    simp only [sweepExpired, List.mem_map] at hs
    obtain ⟨s0, -, heq⟩ := hs
    by_cases h : subDue now s0
    · rw [← heq, if_pos h]
      exact subDue_expired now s0
    · rw [← heq, if_neg h]
      simpa using h
  · intro u hu h
    have hmem := List.mem_map_of_mem
      (fun u => if userDue now u then
        { u with subStatus := "expired", subUntil := none } else u) hu
    simpa [h, sweepExpired] using hmem
  · intro u hu h
    have hmem := List.mem_map_of_mem
      (fun u => if userDue now u then
        { u with subStatus := "expired", subUntil := none } else u) hu
    simpa [h, sweepExpired] using hmem
  · intro u hu
    simp only [sweepExpired, List.mem_map] at hu
    obtain ⟨u0, -, heq⟩ := hu
    by_cases h : userDue now u0
    · rw [← heq, if_pos h]
      exact userDue_expired now u0
    · rw [← heq, if_neg h]
      simpa using h
  · simp only [sweepExpired, List.map_map]
    congr 1
    · apply List.map_congr_left
      intro s _
      simp only [Function.comp_apply]
      by_cases h : subDue now s
      · rw [if_pos h, if_neg (by simp [subDue_expired])]
      · rw [if_neg h, if_neg h]
    · apply List.map_congr_left
      intro u _
      simp only [Function.comp_apply]
      by_cases h : userDue now u
      · rw [if_pos h, if_neg (by simp [userDue_expired])]
      · rw [if_neg h, if_neg h]

/-- C9 witness: a ledger with one overdue active subscription, one
still-valid active subscription and one overdue active user, swept on
2025-06-01. -/
theorem c9_expiry_sweep_witness :
    subDue ⟨2025, 6, 1⟩ ⟨1, "7", "+7", "active", 3000, some ⟨2025, 1, 1⟩⟩
      = true ∧
    subDue ⟨2025, 6, 1⟩ ⟨2, "8", "+7", "active", 3000, some ⟨2026, 1, 1⟩⟩
      = false ∧
    userDue ⟨2025, 6, 1⟩ ⟨"7", "u", none, "active", some ⟨2025, 1, 1⟩, none⟩
      = true ∧
    (∀ s ∈ (sweepExpired ⟨2025, 6, 1⟩ (DB.mk [] []
        [⟨1, "7", "+7", "active", 3000, some ⟨2025, 1, 1⟩⟩,
         ⟨2, "8", "+7", "active", 3000, some ⟨2026, 1, 1⟩⟩]
        [⟨"7", "u", none, "active", some ⟨2025, 1, 1⟩, none⟩])).subscriptions,
      subDue ⟨2025, 6, 1⟩ s = false) ∧
    sweepExpired ⟨2025, 6, 1⟩ (sweepExpired ⟨2025, 6, 1⟩ (DB.mk [] []
        [⟨1, "7", "+7", "active", 3000, some ⟨2025, 1, 1⟩⟩,
         ⟨2, "8", "+7", "active", 3000, some ⟨2026, 1, 1⟩⟩]
        [⟨"7", "u", none, "active", some ⟨2025, 1, 1⟩, none⟩])) =
      sweepExpired ⟨2025, 6, 1⟩ (DB.mk [] []
        [⟨1, "7", "+7", "active", 3000, some ⟨2025, 1, 1⟩⟩,
         ⟨2, "8", "+7", "active", 3000, some ⟨2026, 1, 1⟩⟩]
        [⟨"7", "u", none, "active", some ⟨2025, 1, 1⟩, none⟩]) := by
  have h := c9_expiry_sweep ⟨2025, 6, 1⟩ (DB.mk [] []
    [⟨1, "7", "+7", "active", 3000, some ⟨2025, 1, 1⟩⟩,
     ⟨2, "8", "+7", "active", 3000, some ⟨2026, 1, 1⟩⟩]
    [⟨"7", "u", none, "active", some ⟨2025, 1, 1⟩, none⟩])
  exact ⟨by decide, by decide, by decide, h.2.2.1, h.2.2.2.2.2.2⟩

lemma sendOrderReceipt_payMethod (tg : String) (oid : ℤ)
    (items : List OrderItemIn) (total : ℤ) (pm : String) (r : ReceiptMsg)
    (h : sendOrderReceiptToUser tg oid items total pm = some r) :
    r.payMethod = (if pm = "" then paymentKaspiLink else pm) := by
  unfold sendOrderReceiptToUser at h
  rcases hp : parseI64 (goTrim tg).toList with _ | tgid
  · rw [hp] at h
    cases h
  · rw [hp] at h
    simp only [Option.some.injEq] at h
    rw [← h]

/-- C10: whenever the payment method is absent or empty it defaults to
kaspi_link everywhere: handleConfirmOrder resolves it to kaspi_link and
stores that in the session record, shows it in the admin notification and
passes it into the buyer receipt; the order branch of receipt routing
substitutes kaspi_link for an empty session method; and the receipt
builder itself replaces an empty method with kaspi_link. -/
theorem c10_default_payment_kaspi_link
    (fails : TxStep → Bool) (db : DB) (i : ConfirmOrderIn)
    (p : ℤ × ℤ × ℤ × ℤ)
    (hok : (handleConfirmOrder fails db i).outcome = Except.ok p)
    (hpm : goTrim i.paymentMethod = "") :
    resolvedPm i = paymentKaspiLink ∧
    (∀ uid ust, (handleConfirmOrder fails db i).sessionWrite = some (uid, ust) →
      ust.broadCastType = paymentKaspiLink) ∧
    (∀ note, (handleConfirmOrder fails db i).adminNote = some note →
      note.payMethod = some paymentKaspiLink) ∧
    (∀ r, (handleConfirmOrder fails db i).receipt = some r →
      r.payMethod = paymentKaspiLink) ∧
    (∀ (db2 : DB) (uid : ℤ) (st : UserState), st.broadCastType = "" →
      (∀ s ∈ db2.subscriptions,
        ¬ (s.userId = intToStr uid ∧ s.status = "pending")) →
      ∃ oid, routePaymentDocument db2 uid st =
        RouteResult.orderProof oid uid paymentKaspiLink) ∧
    (∀ (tg : String) (oid : ℤ) (items : List OrderItemIn) (total : ℤ) r,
      sendOrderReceiptToUser tg oid items total "" = some r →
      r.payMethod = paymentKaspiLink) := by
  have hres : resolvedPm i = paymentKaspiLink := by
    simp [resolvedPm, hpm]
  obtain ⟨-, -, hsess, hnote, hrec⟩ := handleConfirmOrder_ok fails db i p hok
  refine ⟨hres, ?_, ?_, ?_, ?_, ?_⟩
  · intro uid ust hw
    rw [hsess] at hw
    rcases hu : parseI64 (goTrim i.telegramId).toList with _ | u0
    · rw [hu] at hw
      cases hw
    · rw [hu] at hw
      simp only [Option.map_some', Option.some.injEq, Prod.mk.injEq] at hw
      rw [← hw.2, hres]
  · intro note hw
    rw [hnote] at hw
    simp only [Option.some.injEq] at hw
    rw [← hw, hres]
  · intro r hw
    rw [hrec] at hw
    have h2 := sendOrderReceipt_payMethod _ _ _ _ _ _ hw
    rw [h2, hres]
    simp [paymentKaspiLink]
  · intro db2 uid st hbc hnosub
    have hfilt : db2.subscriptions.filter
        (fun s => s.userId = intToStr uid ∧ s.status = "pending") = [] := by
      apply List.filter_eq_nil_iff.mpr
      intro s hs h
      simp only [decide_eq_true_eq] at h
      exact hnosub s hs h
    have hroute : routePaymentDocument db2 uid st = orderProofOf db2 uid st := by
      simp only [routePaymentDocument]
      rw [hfilt]
      rfl
    refine ⟨match maxBy (fun o => o.id)
        (db2.orders.filter (fun o => o.userId = intToStr uid)) with
      | none => 0
      | some o => o.id, ?_⟩
    rw [hroute]
    simp [orderProofOf, hbc]
  · intro tg oid items total r hw
    have h2 := sendOrderReceipt_payMethod _ _ _ _ _ _ hw
    rw [h2]
    simp

/-- C10 witness: a confirm request with an empty payment_method string;
its session write and receipt both carry kaspi_link. -/
theorem c10_default_payment_kaspi_link_witness :
    (handleConfirmOrder (fun _ => false) ⟨[], [], [], []⟩
        ⟨"7", [⟨1, "x", 2, "kg", 500⟩], "pickup", "", "", ""⟩).outcome =
      Except.ok (1, 1000, 0, 1000) ∧
    goTrim "" = "" ∧
    (resolvedPm ⟨"7", [⟨1, "x", 2, "kg", 500⟩], "pickup", "", "", ""⟩ =
      paymentKaspiLink ∧
     (∀ uid ust, (handleConfirmOrder (fun _ => false) ⟨[], [], [], []⟩
        ⟨"7", [⟨1, "x", 2, "kg", 500⟩], "pickup", "", "", ""⟩).sessionWrite =
          some (uid, ust) → ust.broadCastType = paymentKaspiLink) ∧
     (∀ r, (handleConfirmOrder (fun _ => false) ⟨[], [], [], []⟩
        ⟨"7", [⟨1, "x", 2, "kg", 500⟩], "pickup", "", "", ""⟩).receipt =
          some r → r.payMethod = paymentKaspiLink)) := by
  have hok : (handleConfirmOrder (fun _ => false) ⟨[], [], [], []⟩
      ⟨"7", [⟨1, "x", 2, "kg", 500⟩], "pickup", "", "", ""⟩).outcome =
      Except.ok (1, 1000, 0, 1000) := by
    rw [handleConfirmOrder_no_failure (fun _ => false) ⟨[], [], [], []⟩ _
      (fun _ => rfl) (by decide) (by decide)]
    decide
  have h := c10_default_payment_kaspi_link (fun _ => false) ⟨[], [], [], []⟩
    ⟨"7", [⟨1, "x", 2, "kg", 500⟩], "pickup", "", "", ""⟩
    (1, 1000, 0, 1000) hok (by decide)
  exact ⟨hok, by decide, h.1, h.2.1, h.2.2.2.1⟩

end Agro
